import Mathlib

/-!
Verification of the copy-trading simulator's core components against its
natural-language specification.  Each Python component is shallowly embedded
as executable Lean definitions over `ℚ` (for the Python floats) and `ℤ`
(for timestamps); the theorems at the end of the file settle the frozen
claims C1..C10.

Sources embedded here:
  * `core/monitoring/poller.py`          (`TransactionPoller.poll`)
  * `core/trading/risk_controller.py`    (`RiskController`)
  * `core/portfolio/position_manager.py` (`PositionManager`)
  * `core/trading/executor.py`           (`VirtualExecutor`)
  * `core/trading/strategy.py`           (`TradingStrategy`)
  * `core/parsing/signal_parser.py`      (`SignalParser`)
  * `storage/transaction_logger.py`      (`TransactionLogger`)
  * `core/orchestration/trading_coordinator.py` / `main.py` (pipeline)
  * `config.py`                          (numeric configuration)
-/

/-! ## Transaction poller (core/monitoring/poller.py) -/

/-- A raw transaction as seen by the poller: only its signature matters. -/
structure PolledTx where
  signature : String
deriving DecidableEq

/-- `TransactionPoller.poll` (poller.py lines 46-103).  The stored anchor is
`anchor` (`self.last_known_sig`), `recent` is the monitor's newest-first
response to `get_recent_transactions(limit)`.  Returns
`(new_transactions, gap_detected, new_anchor)`. -/
def poll (anchor : Option String) (recent : List PolledTx) (limit : Nat) :
    List PolledTx × Bool × Option String :=
  match recent with
  | [] => ([], false, anchor)
  | latest :: _ =>
    match anchor with
    | none =>
      -- first run: adopt the newest as anchor, report nothing as new
      ([], false, some latest.signature)
    | some a =>
      -- scan from newest until the anchor is found; everything before it is new
      let newTxs := recent.takeWhile (fun tx => !(tx.signature == a))
      let foundAnchor := recent.any (fun tx => tx.signature == a)
      -- gap iff the anchor was not found AND the scan filled the whole limit;
      -- in the source the anchor is updated to `new_txs[0]` in both the gap
      -- and the no-gap branch whenever `new_txs` is non-empty
      let gap := !foundAnchor && newTxs.length == limit
      let anchorOut :=
        match newTxs.head? with
        | some t => some t.signature
        | none => some a
      (newTxs, gap, anchorOut)

/-- The list of new transactions returned by a poll. -/
def pollNew (anchor : Option String) (recent : List PolledTx) (limit : Nat) :
    List PolledTx :=
  (poll anchor recent limit).1

/-- The gap flag returned by a poll. -/
def pollGap (anchor : Option String) (recent : List PolledTx) (limit : Nat) : Bool :=
  (poll anchor recent limit).2.1

/-- The anchor stored after a poll. -/
def pollAnchor (anchor : Option String) (recent : List PolledTx) (limit : Nat) :
    Option String :=
  (poll anchor recent limit).2.2

theorem takeWhile_eq_self_of_not_found {recent : List PolledTx} {a : String}
    (h : ∀ tx ∈ recent, tx.signature ≠ a) :
    recent.takeWhile (fun tx => !(tx.signature == a)) = recent := by
  induction recent with
  | nil => rfl
  | cons t rest ih =>
    have ht : t.signature ≠ a := h t (List.mem_cons_self t rest)
    simp only [List.takeWhile_cons, beq_eq_false_iff_ne, Bool.not_eq_true']
    rw [if_pos (by simpa using ht), ih fun tx hx => h tx (List.mem_cons_of_mem t hx)]

theorem any_eq_false_iff_not_found {recent : List PolledTx} {a : String} :
    (recent.any fun tx => tx.signature == a) = false ↔
      ∀ tx ∈ recent, tx.signature ≠ a := by
  simp [List.any_eq_true]

theorem poll_some_cons (a : String) (latest : PolledTx) (rest : List PolledTx)
    (limit : Nat) :
    poll (some a) (latest :: rest) limit =
      (let newTxs := (latest :: rest).takeWhile (fun tx => !(tx.signature == a))
       (newTxs,
        !((latest :: rest).any fun tx => tx.signature == a) && newTxs.length == limit,
        match newTxs.head? with
        | some t => some t.signature
        | none => some a)) := by
  rfl

/-- C3 (amended): when a poller with stored anchor `a` polls with a positive
`limit`, (i) `gap_detected` is true iff the anchor signature appears nowhere
in the fetched list AND the fetched list has exactly `limit` elements,
(ii) the anchor never moves backward: afterwards it is either unchanged or
the signature of the newest (first) fetched transaction, and (iii) on a gap
all fetched transactions are treated as new. -/
theorem C3_gap_detection (a : String) (recent : List PolledTx) (limit : Nat)
    (hlim : 0 < limit) :
    (pollGap (some a) recent limit = true ↔
      ((∀ tx ∈ recent, tx.signature ≠ a) ∧ recent.length = limit))
    ∧ (pollAnchor (some a) recent limit = some a ∨
        ∃ t rest, recent = t :: rest ∧
          pollAnchor (some a) recent limit = some t.signature)
    ∧ (pollGap (some a) recent limit = true →
        pollNew (some a) recent limit = recent) := by
  cases recent with
  | nil =>
    refine ⟨?_, Or.inl rfl, ?_⟩
    · simp only [pollGap, poll]
      constructor
      · intro h; cases h
      · rintro ⟨-, hlen⟩
        exfalso
        simp only [List.length_nil] at hlen
        omega
    · intro h; cases h
  | cons latest rest =>
    by_cases hf : ∀ tx ∈ latest :: rest, tx.signature ≠ a
    · -- anchor not found: all fetched transactions are new
      have hany : ((latest :: rest).any fun tx => tx.signature == a) = false :=
        any_eq_false_iff_not_found.mpr hf
      have htake := takeWhile_eq_self_of_not_found hf
      refine ⟨?_, ?_, ?_⟩
      · simp only [pollGap, poll_some_cons, hany, htake, Bool.not_false,
          Bool.true_and, beq_iff_eq]
        exact ⟨fun h => ⟨hf, h⟩, And.right⟩
      · right
        refine ⟨latest, rest, rfl, ?_⟩
        simp only [pollAnchor, poll_some_cons, htake]
        rfl
      · intro _
        simp only [pollNew, poll_some_cons, htake]
    · -- anchor found: no gap is ever reported
      push_neg at hf
      obtain ⟨tx0, htx0, hsig0⟩ := hf
      have hany : ((latest :: rest).any fun tx => tx.signature == a) = true := by
        simp only [List.any_eq_true, beq_iff_eq]
        exact ⟨tx0, htx0, hsig0⟩
      refine ⟨?_, ?_, ?_⟩
      · simp only [pollGap, poll_some_cons, hany]
        simp only [Bool.not_true, Bool.false_and]
        constructor
        · intro h; cases h
        · rintro ⟨hall, -⟩
          exact absurd hsig0 (hall tx0 htx0)
      · by_cases hl : latest.signature = a
        · left
          simp only [pollAnchor, poll_some_cons, List.takeWhile_cons]
          simp [hl]
        · right
          refine ⟨latest, rest, rfl, ?_⟩
          simp only [pollAnchor, poll_some_cons, List.takeWhile_cons]
          simp [hl]
      · intro hgap
        exfalso
        simp only [pollGap, poll_some_cons, hany, Bool.not_true, Bool.false_and] at hgap
        cases hgap

/-- C3 counterexample to the claim as stated: with stored anchor `"a"` and a
fetch of a single transaction `"b"` under `limit = 5`, the anchor signature
does not appear among the fetched transactions, yet `gap_detected` is
`false` (the source only flags a gap when the scan fills the whole limit). -/
theorem C3_counterexample :
    pollGap (some "a") [PolledTx.mk "b"] 5 = false ∧
      (∀ tx ∈ [PolledTx.mk "b"], tx.signature ≠ "a") := by
  constructor
  · rfl
  · decide

/-- C3 witness: instantiating the amended theorem at anchor `"t1"` and fetch
`[t3, t2, t1]` with `limit = 5`: the anchor is found, so no gap. -/
theorem C3_gap_detection_witness :
    pollGap (some "t1") [PolledTx.mk "t3", PolledTx.mk "t2", PolledTx.mk "t1"] 5 ≠ true :=
  fun h =>
    absurd (((C3_gap_detection "t1"
      [PolledTx.mk "t3", PolledTx.mk "t2", PolledTx.mk "t1"] 5 (by decide)).1).mp h).2
      (by decide)

/-- C8: (i) on a first poll with no stored anchor and a non-empty fetch the
poller adopts the newest fetched transaction's signature as anchor and
returns no new transactions with `gap_detected = false`; (ii) a subsequent
poll whose newest fetched transaction is still the anchored one returns no
new transactions, no gap, and leaves the anchor unchanged. -/
theorem C8_first_poll_and_idempotency (t u : PolledTx) (rest rest2 : List PolledTx)
    (limit : Nat) (a : String) (hu : u.signature = a) :
    poll none (t :: rest) limit = ([], false, some t.signature)
    ∧ poll (some a) (u :: rest2) limit = ([], false, some a) := by
  constructor
  · rfl
  · subst hu
    simp [poll_some_cons, List.takeWhile_cons]

/-- C8 witness: concrete first poll over five transactions newest-first, then
an idempotent re-poll anchored at the newest. -/
theorem C8_first_poll_witness :
    poll none [PolledTx.mk "t5", PolledTx.mk "t4", PolledTx.mk "t3",
      PolledTx.mk "t2", PolledTx.mk "t1"] 5 = ([], false, some "t5")
    ∧ poll (some "t5") [PolledTx.mk "t5", PolledTx.mk "t4", PolledTx.mk "t3",
      PolledTx.mk "t2", PolledTx.mk "t1"] 5 = ([], false, some "t5") :=
  C8_first_poll_and_idempotency (PolledTx.mk "t5") (PolledTx.mk "t5")
    [PolledTx.mk "t4", PolledTx.mk "t3", PolledTx.mk "t2", PolledTx.mk "t1"]
    [PolledTx.mk "t4", PolledTx.mk "t3", PolledTx.mk "t2", PolledTx.mk "t1"]
    5 "t5" rfl

/-! ## Risk controller (core/trading/risk_controller.py, config.py RiskConfig) -/

/-- `RiskConfig.MAX_CONSECUTIVE_LOSSES` (config.py line 60). -/
def maxConsecutiveLosses : Nat := 5

/-- `RiskConfig.STOP_AFTER_TRIGGER_HOURS` (config.py line 61). -/
def stopAfterTriggerHours : Int := 24

/-- The mutable risk state of `RiskController` (risk_controller.py lines
58-62); clock values are in seconds. -/
structure RiskState where
  consecutive_losses : Nat
  is_paused : Bool
  pause_until : Option Int
  pause_reason : String
deriving DecidableEq

/-- A fresh controller state (risk_controller.py lines 58-62). -/
def initialRiskState : RiskState :=
  { consecutive_losses := 0, is_paused := false, pause_until := none,
    pause_reason := "" }

/-- `RiskController._trigger_pause` (risk_controller.py lines 260-288). -/
def triggerPause (s : RiskState) (reason : String) (now : Int) : RiskState :=
  { s with is_paused := true, pause_reason := reason,
           pause_until := some (now + stopAfterTriggerHours * 3600) }

/-- `RiskController.record_trade_result` (risk_controller.py lines 76-98). -/
def recordTradeResult (s : RiskState) (isProfit : Bool) (now : Int) : RiskState :=
  if isProfit then
    { s with consecutive_losses := 0 }
  else
    let s' := { s with consecutive_losses := s.consecutive_losses + 1 }
    if s'.consecutive_losses ≥ maxConsecutiveLosses then
      triggerPause s' "连续亏损达到限制" now
    else
      s'

/-- `RiskController.check_trading_allowed` (risk_controller.py lines 100-121).
Both paused branches return `False`: an elapsed deadline still refuses. -/
def checkTradingAllowed (s : RiskState) (now : Int) : Bool × String :=
  if s.is_paused then
    match s.pause_until with
    | some u =>
      if now ≥ u then
        (false, "风控暂停中（" ++ s.pause_reason ++ "），需要手动恢复")
      else
        (false, "风控暂停中，剩余时间")
    | none => (false, "风控暂停中（" ++ s.pause_reason ++ "），需要手动恢复")
  else
    (true, "")

/-- `RiskController.resume_trading` (risk_controller.py lines 290-321);
returns the Python return value paired with the updated state. -/
def resumeTrading (s : RiskState) : Bool × RiskState :=
  if ¬s.is_paused then
    (false, s)
  else
    (true, { s with is_paused := false, pause_until := none,
                    consecutive_losses := 0 })

/-- A run of `record_trade_result(False)` calls, oldest first. -/
def recordLosses (s : RiskState) (now : Int) : Nat → RiskState
  | 0 => s
  | n + 1 => recordTradeResult (recordLosses s now n) false now

theorem recordLosses_below_limit (s : RiskState) (now : Int) (n : Nat)
    (hpause : s.is_paused = false)
    (h : s.consecutive_losses + n < maxConsecutiveLosses) :
    (recordLosses s now n).consecutive_losses = s.consecutive_losses + n ∧
      (recordLosses s now n).is_paused = false := by
  induction n with
  | zero => exact ⟨rfl, hpause⟩
  | succ k ih =>
    obtain ⟨hcl, hp⟩ := ih (by omega)
    simp only [recordLosses, recordTradeResult, Bool.false_eq_true, if_false]
    split
    · next htrig =>
      exfalso
      simp only [hcl, ge_iff_le] at htrig
      omega
    · next => exact ⟨by simp only [hcl]; omega, by simp [hp]⟩

theorem recordLosses_hits_limit (s : RiskState) (now : Int)
    (hpause : s.is_paused = false) (hzero : s.consecutive_losses = 0) :
    (recordLosses s now maxConsecutiveLosses).is_paused = true := by
  have hmax : maxConsecutiveLosses = 5 := rfl
  obtain ⟨hcl, -⟩ := recordLosses_below_limit s now 4 hpause
    (by rw [hzero, hmax]; omega)
  show (recordTradeResult (recordLosses s now 4) false now).is_paused = true
  simp only [recordTradeResult, Bool.false_eq_true, if_false]
  split
  · next => rfl
  · next hneg =>
    exfalso
    simp only [hcl, hzero, hmax, ge_iff_le] at hneg
    omega

/-- C4: starting from an unpaused state with zero consecutive losses,
exactly `MAX_CONSECUTIVE_LOSSES` consecutive losing `record_trade_result`
calls make `check_trading_allowed` refuse trading; and with a single
profitable call inserted after `k < MAX` losses followed by `m < MAX`
further losses, the counter was reset so trading remains allowed. -/
theorem C4_consecutive_loss_breaker (s : RiskState) (now now2 : Int) (k m : Nat)
    (hpause : s.is_paused = false) (hzero : s.consecutive_losses = 0)
    (hk : k < maxConsecutiveLosses) (hm : m < maxConsecutiveLosses) :
    (checkTradingAllowed (recordLosses s now maxConsecutiveLosses) now2).1 = false
    ∧ (recordTradeResult (recordLosses s now k) true now).consecutive_losses = 0
    ∧ (checkTradingAllowed
        (recordLosses (recordTradeResult (recordLosses s now k) true now) now m)
        now2).1 = true := by
  have hklt : s.consecutive_losses + k < maxConsecutiveLosses := by omega
  obtain ⟨hcl, hp⟩ := recordLosses_below_limit s now k hpause hklt
  have hprofit : recordTradeResult (recordLosses s now k) true now =
      { recordLosses s now k with consecutive_losses := 0 } := rfl
  refine ⟨?_, ?_, ?_⟩
  · have hpaused := recordLosses_hits_limit s now hpause hzero
    simp only [checkTradingAllowed, hpaused, if_true]
    cases (recordLosses s now maxConsecutiveLosses).pause_until with
    | none => rfl
    | some u =>
      by_cases hnow : now2 ≥ u
      · simp [hnow]
      · simp [hnow]
  · rw [hprofit]
  · have hm' : ({ recordLosses s now k with consecutive_losses := 0 } :
        RiskState).consecutive_losses + m < maxConsecutiveLosses := by
      simpa using hm
    obtain ⟨-, hp2⟩ := recordLosses_below_limit
      { recordLosses s now k with consecutive_losses := 0 } now m (by simpa using hp) hm'
    rw [hprofit]
    simp only [checkTradingAllowed, hp2, Bool.false_eq_true, if_false]

/-- C4 witness: from the fresh state, five straight losses trip the breaker,
while four losses, one profit and four more losses leave trading allowed. -/
theorem C4_consecutive_loss_breaker_witness :
    (checkTradingAllowed (recordLosses initialRiskState 0 maxConsecutiveLosses) 1).1 = false
    ∧ (checkTradingAllowed
        (recordLosses (recordTradeResult (recordLosses initialRiskState 0 4) true 0) 0 4)
        1).1 = true :=
  ⟨(C4_consecutive_loss_breaker initialRiskState 0 1 4 4 rfl rfl (by decide)
      (by decide)).1,
   (C4_consecutive_loss_breaker initialRiskState 0 1 4 4 rfl rfl (by decide)
      (by decide)).2.2⟩

/-- C9: (i) whenever the controller is paused, `check_trading_allowed`
refuses — in particular even when the pause deadline `pause_until` has
already elapsed (`u ≤ now`); (ii) `resume_trading` on a paused state returns
True, clears the paused flag and deadline and zeroes the consecutive-loss
counter; (iii) on a non-paused state it returns False and changes nothing. -/
theorem C9_manual_resume (s : RiskState) (now : Int) :
    (s.is_paused = true → (checkTradingAllowed s now).1 = false)
    ∧ (s.is_paused = true → ∀ u, s.pause_until = some u → u ≤ now →
        (checkTradingAllowed s now).1 = false)
    ∧ (s.is_paused = true →
        resumeTrading s = (true,
          { s with is_paused := false, pause_until := none,
                   consecutive_losses := 0 }))
    ∧ (s.is_paused = false → resumeTrading s = (false, s)) := by
  refine ⟨?_, ?_, ?_, ?_⟩
  · intro hp
    simp only [checkTradingAllowed, hp, if_true]
    cases s.pause_until with
    | none => rfl
    | some u =>
      by_cases hnow : now ≥ u
      · simp [hnow]
      · simp [hnow]
  · intro hp u _ _
    simp only [checkTradingAllowed, hp, if_true]
    cases s.pause_until with
    | none => rfl
    | some v =>
      by_cases hnow : now ≥ v
      · simp [hnow]
      · simp [hnow]
  · intro hp
    simp [resumeTrading, hp]
  · intro hp
    simp [resumeTrading, hp]

/-- C9 witness: a state paused until time 100 still refuses trading at time
500, and manual resume clears it; resume on the fresh state is a no-op. -/
theorem C9_manual_resume_witness :
    (checkTradingAllowed
      { consecutive_losses := 3, is_paused := true, pause_until := some 100,
        pause_reason := "r" } 500).1 = false
    ∧ resumeTrading
        { consecutive_losses := 3, is_paused := true, pause_until := some 100,
          pause_reason := "r" } =
      (true, { consecutive_losses := 0, is_paused := false, pause_until := none,
               pause_reason := "r" })
    ∧ resumeTrading initialRiskState = (false, initialRiskState) :=
  ⟨(C9_manual_resume
      { consecutive_losses := 3, is_paused := true, pause_until := some 100,
        pause_reason := "r" } 500).2.1 rfl 100 rfl (by decide),
   (C9_manual_resume
      { consecutive_losses := 3, is_paused := true, pause_until := some 100,
        pause_reason := "r" } 500).2.2.1 rfl,
   (C9_manual_resume initialRiskState 500).2.2.2 rfl⟩

/-! ## Position manager (core/portfolio/position_manager.py, core/data_models.py) -/

/-- The `Position` dataclass (data_models.py lines 136-167); Python floats
are embedded as `ℚ`, timestamps as `ℤ`. -/
structure TokenPosition where
  mint : String
  symbol : String
  amount : ℚ
  cost_basis : ℚ
  total_cost : ℚ
  current_price : ℚ
  unrealized_pnl : ℚ
  unrealized_pnl_percent : ℚ
  entry_time : Int
  last_update_time : Int
deriving DecidableEq

/-- The position map `self.positions` (`{mint: Position}`); keys are unique
in a Python dict. -/
abbrev Positions : Type := List (String × TokenPosition)

/-- Dict lookup `self.positions.get(mint)` / `self.positions[mint]`. -/
def lookupPos : Positions → String → Option TokenPosition
  | [], _ => none
  | (k, p) :: rest, m => if k = m then some p else lookupPos rest m

/-- Dict assignment `self.positions[mint] = position`. -/
def updatePos : Positions → String → TokenPosition → Positions
  | [], m, p => [(m, p)]
  | (k, q) :: rest, m, p =>
    if k = m then (m, p) :: rest else (k, q) :: updatePos rest m p

/-- Dict deletion `del self.positions[mint]`. -/
def removePos : Positions → String → Positions
  | [], _ => []
  | (k, q) :: rest, m => if k = m then rest else (k, q) :: removePos rest m

/-- `Position` update performed by `PositionManager._recalculate_pnl`
(position_manager.py lines 278-311).  Note that `unrealized_pnl_percent` is
stored in percentage points: the fractional change multiplied by 100. -/
def recalcPnlPos (p : TokenPosition) : TokenPosition :=
  { p with
    unrealized_pnl := (p.current_price - p.cost_basis) * p.amount,
    unrealized_pnl_percent :=
      if 0 < p.cost_basis then
        ((p.current_price - p.cost_basis) / p.cost_basis) * 100
      else 0 }

/-- `PositionManager._recalculate_pnl` on the whole map. -/
def recalcPnl (ps : Positions) (mint : String) : Positions :=
  match lookupPos ps mint with
  | none => ps
  | some p => updatePos ps mint (recalcPnlPos p)

/-- `PositionManager.add_position` (position_manager.py lines 45-120). -/
def addPosition (ps : Positions) (mint symbol : String) (amount cost : ℚ)
    (now : Int) : Positions :=
  if amount ≤ 0 then ps
  else
    let cost_per_token := cost / amount
    match lookupPos ps mint with
    | some old =>
      let total_cost := old.total_cost + cost
      let total_amount := old.amount + amount
      let new_cost_basis := total_cost / total_amount
      let p : TokenPosition :=
        { mint := mint, symbol := symbol, amount := total_amount,
          cost_basis := new_cost_basis, total_cost := total_cost,
          current_price := old.current_price,
          unrealized_pnl := 0, unrealized_pnl_percent := 0,
          entry_time := old.entry_time, last_update_time := now }
      recalcPnl (updatePos ps mint p) mint
    | none =>
      updatePos ps mint
        { mint := mint, symbol := symbol, amount := amount,
          cost_basis := cost_per_token, total_cost := cost,
          current_price := cost_per_token,
          unrealized_pnl := 0, unrealized_pnl_percent := 0,
          entry_time := now, last_update_time := now }

/-- `PositionManager.reduce_position` (position_manager.py lines 122-194);
returns `(realized_pnl, updated map)`. -/
def reducePosition (ps : Positions) (mint : String) (amount exit_price : ℚ)
    (now : Int) : ℚ × Positions :=
  match lookupPos ps mint with
  | none => (0, ps)
  | some position =>
    if amount > position.amount then (0, ps)
    else
      let cost_basis := position.cost_basis
      let realized_pnl := (exit_price - cost_basis) * amount
      if amount ≥ position.amount then
        (realized_pnl, removePos ps mint)
      else
        let new_amount := position.amount - amount
        let new_total_cost := position.total_cost - cost_basis * amount
        let p : TokenPosition :=
          { mint := mint, symbol := position.symbol, amount := new_amount,
            cost_basis := cost_basis, total_cost := new_total_cost,
            current_price := exit_price,
            unrealized_pnl := 0, unrealized_pnl_percent := 0,
            entry_time := position.entry_time, last_update_time := now }
        (realized_pnl, recalcPnl (updatePos ps mint p) mint)

theorem lookupPos_mem {ps : Positions} {m : String} {p : TokenPosition}
    (h : lookupPos ps m = some p) : (m, p) ∈ ps := by
  induction ps with
  | nil => cases h
  | cons f rest ih =>
    obtain ⟨k, q⟩ := f
    simp only [lookupPos] at h
    by_cases hk : k = m
    · rw [if_pos hk] at h
      injection h with h2
      subst h2
      subst hk
      exact List.mem_cons_self _ _
    · rw [if_neg hk] at h
      exact List.mem_cons_of_mem _ (ih h)

theorem mem_updatePos {ps : Positions} {m : String} {p : TokenPosition}
    {e : String × TokenPosition} (h : e ∈ updatePos ps m p) :
    e = (m, p) ∨ e ∈ ps := by
  induction ps with
  | nil =>
    simp only [updatePos, List.mem_singleton] at h
    exact Or.inl h
  | cons f rest ih =>
    obtain ⟨k, q⟩ := f
    simp only [updatePos] at h
    by_cases hk : k = m
    · rw [if_pos hk] at h
      rcases List.mem_cons.mp h with h | h
      · exact Or.inl h
      · exact Or.inr (List.mem_cons_of_mem _ h)
    · rw [if_neg hk] at h
      rcases List.mem_cons.mp h with h | h
      · exact Or.inr (by rw [h]; exact List.mem_cons_self _ _)
      · rcases ih h with h' | h'
        · exact Or.inl h'
        · exact Or.inr (List.mem_cons_of_mem _ h')

theorem removePos_sublist (ps : Positions) (m : String) :
    List.Sublist (removePos ps m) ps := by
  induction ps with
  | nil => exact List.Sublist.refl _
  | cons f rest ih =>
    obtain ⟨k, q⟩ := f
    simp only [removePos]
    by_cases hk : k = m
    · rw [if_pos hk]
      exact (List.Sublist.refl rest).cons _
    · rw [if_neg hk]
      exact List.Sublist.cons₂ _ ih

theorem mem_removePos {ps : Positions} {m : String}
    {e : String × TokenPosition} (h : e ∈ removePos ps m) : e ∈ ps :=
  (removePos_sublist ps m).mem h

theorem lookupPos_updatePos_self (ps : Positions) (m : String)
    (p : TokenPosition) : lookupPos (updatePos ps m p) m = some p := by
  induction ps with
  | nil => simp [updatePos, lookupPos]
  | cons f rest ih =>
    obtain ⟨k, q⟩ := f
    by_cases hk : k = m
    · simp [updatePos, lookupPos, hk]
    · simp [updatePos, lookupPos, hk, ih]

theorem updatePos_updatePos (ps : Positions) (m : String)
    (p q : TokenPosition) :
    updatePos (updatePos ps m p) m q = updatePos ps m q := by
  induction ps with
  | nil => simp [updatePos]
  | cons f rest ih =>
    obtain ⟨k, r⟩ := f
    by_cases hk : k = m
    · simp [updatePos, hk]
    · simp [updatePos, hk, ih]

theorem recalcPnl_updatePos (ps : Positions) (m : String) (p : TokenPosition) :
    recalcPnl (updatePos ps m p) m = updatePos ps m (recalcPnlPos p) := by
  simp [recalcPnl, lookupPos_updatePos_self, updatePos_updatePos]

/-- Per-position invariant from the spec's data model: positive held
quantity, `amount * cost_basis = total_cost`, and
`unrealized_pnl = (current_price - cost_basis) * amount`.  Over `ℚ` the
spec's floating-tolerance statement holds exactly. -/
def posInv (p : TokenPosition) : Prop :=
  0 < p.amount ∧ p.amount * p.cost_basis = p.total_cost ∧
    p.unrealized_pnl = (p.current_price - p.cost_basis) * p.amount

instance (p : TokenPosition) : Decidable (posInv p) := by
  unfold posInv
  infer_instance

/-- Every stored position satisfies the invariant. -/
def pmInv (ps : Positions) : Prop := ∀ e ∈ ps, posInv e.2

instance (ps : Positions) : Decidable (pmInv ps) := by
  unfold pmInv
  infer_instance

/-- The mint keys of the map are distinct (as in a Python dict). -/
def keysNodup (ps : Positions) : Prop := (ps.map Prod.fst).Nodup

instance (ps : Positions) : Decidable (keysNodup ps) := by
  unfold keysNodup
  infer_instance

theorem keys_updatePos {ps : Positions} {m x : String} {p : TokenPosition}
    (h : x ∈ (updatePos ps m p).map Prod.fst) :
    x = m ∨ x ∈ ps.map Prod.fst := by
  simp only [List.mem_map] at h
  obtain ⟨e, he, hx⟩ := h
  rcases mem_updatePos he with h' | h'
  · left
    rw [h'] at hx
    exact hx.symm
  · right
    exact List.mem_map.mpr ⟨e, h', hx⟩

theorem keysNodup_updatePos {ps : Positions} (m : String) (p : TokenPosition)
    (h : keysNodup ps) : keysNodup (updatePos ps m p) := by
  induction ps with
  | nil => simp [updatePos, keysNodup]
  | cons f rest ih =>
    obtain ⟨k, q⟩ := f
    simp only [keysNodup, List.map_cons, List.nodup_cons] at h
    obtain ⟨hk1, hk2⟩ := h
    simp only [updatePos]
    by_cases hk : k = m
    · rw [if_pos hk]
      subst hk
      simp only [keysNodup, List.map_cons, List.nodup_cons]
      exact ⟨hk1, hk2⟩
    · rw [if_neg hk]
      simp only [keysNodup, List.map_cons, List.nodup_cons]
      refine ⟨?_, ih hk2⟩
      intro hmem
      rcases keys_updatePos hmem with h' | h'
      · exact hk h'
      · exact hk1 h'

theorem keysNodup_removePos {ps : Positions} (m : String) (h : keysNodup ps) :
    keysNodup (removePos ps m) :=
  List.Nodup.sublist ((removePos_sublist ps m).map Prod.fst) h

theorem lookupPos_eq_none {ps : Positions} {m : String}
    (h : m ∉ ps.map Prod.fst) : lookupPos ps m = none := by
  induction ps with
  | nil => rfl
  | cons f rest ih =>
    obtain ⟨k, q⟩ := f
    simp only [List.map_cons, List.mem_cons, not_or] at h
    obtain ⟨h1, h2⟩ := h
    simp only [lookupPos]
    rw [if_neg fun hk => h1 hk.symm]
    exact ih h2

theorem lookupPos_removePos_self {ps : Positions} {m : String}
    (h : keysNodup ps) : lookupPos (removePos ps m) m = none := by
  induction ps with
  | nil => rfl
  | cons f rest ih =>
    obtain ⟨k, q⟩ := f
    simp only [keysNodup, List.map_cons, List.nodup_cons] at h
    obtain ⟨h1, h2⟩ := h
    simp only [removePos]
    by_cases hk : k = m
    · rw [if_pos hk]
      subst hk
      exact lookupPos_eq_none h1
    · rw [if_neg hk]
      simp only [lookupPos]
      rw [if_neg hk]
      exact ih h2

theorem posInv_recalcPnlPos {p : TokenPosition} (h1 : 0 < p.amount)
    (h2 : p.amount * p.cost_basis = p.total_cost) : posInv (recalcPnlPos p) :=
  ⟨h1, h2, rfl⟩


theorem addPosition_lookup_none {ps : Positions} {mint : String}
    (symbol : String) {amount : ℚ} (cost : ℚ) (now : Int)
    (hamt : 0 < amount) (h : lookupPos ps mint = none) :
    addPosition ps mint symbol amount cost now =
      updatePos ps mint
        { mint := mint, symbol := symbol, amount := amount,
          cost_basis := cost / amount, total_cost := cost,
          current_price := cost / amount,
          unrealized_pnl := 0, unrealized_pnl_percent := 0,
          entry_time := now, last_update_time := now } := by
  simp only [addPosition]
  rw [if_neg (not_le.mpr hamt), h]

theorem addPosition_lookup_some {ps : Positions} {mint : String}
    {old : TokenPosition} (symbol : String) {amount : ℚ} (cost : ℚ) (now : Int)
    (hamt : 0 < amount) (h : lookupPos ps mint = some old) :
    addPosition ps mint symbol amount cost now =
      updatePos ps mint (recalcPnlPos
        { mint := mint, symbol := symbol, amount := old.amount + amount,
          cost_basis := (old.total_cost + cost) / (old.amount + amount),
          total_cost := old.total_cost + cost,
          current_price := old.current_price,
          unrealized_pnl := 0, unrealized_pnl_percent := 0,
          entry_time := old.entry_time, last_update_time := now }) := by
  simp only [addPosition]
  rw [if_neg (not_le.mpr hamt), h]
  exact recalcPnl_updatePos ps mint _

theorem reducePosition_lookup_none {ps : Positions} {mint : String}
    (amount exit_price : ℚ) (now : Int) (h : lookupPos ps mint = none) :
    reducePosition ps mint amount exit_price now = (0, ps) := by
  simp only [reducePosition]
  rw [h]

theorem reducePosition_insufficient {ps : Positions} {mint : String}
    {position : TokenPosition} {amount : ℚ} (exit_price : ℚ) (now : Int)
    (h : lookupPos ps mint = some position) (hgt : amount > position.amount) :
    reducePosition ps mint amount exit_price now = (0, ps) := by
  simp only [reducePosition]
  rw [h]
  exact if_pos hgt

theorem reducePosition_full {ps : Positions} {mint : String}
    {position : TokenPosition} {amount : ℚ} (exit_price : ℚ) (now : Int)
    (h : lookupPos ps mint = some position)
    (hng : ¬amount > position.amount) (hge : amount ≥ position.amount) :
    reducePosition ps mint amount exit_price now =
      ((exit_price - position.cost_basis) * amount, removePos ps mint) := by
  simp only [reducePosition]
  rw [h]
  exact (if_neg hng).trans (if_pos hge)

theorem reducePosition_keep {ps : Positions} {mint : String}
    {position : TokenPosition} {amount : ℚ} (exit_price : ℚ) (now : Int)
    (h : lookupPos ps mint = some position)
    (hng : ¬amount > position.amount) (hge : ¬amount ≥ position.amount) :
    reducePosition ps mint amount exit_price now =
      ((exit_price - position.cost_basis) * amount,
        updatePos ps mint (recalcPnlPos
          { mint := mint, symbol := position.symbol,
            amount := position.amount - amount,
            cost_basis := position.cost_basis,
            total_cost := position.total_cost - position.cost_basis * amount,
            current_price := exit_price,
            unrealized_pnl := 0, unrealized_pnl_percent := 0,
            entry_time := position.entry_time, last_update_time := now })) := by
  simp only [reducePosition]
  rw [h]
  refine (if_neg hng).trans ((if_neg hge).trans ?_)
  rw [recalcPnl_updatePos]

theorem pmInv_addPosition {ps : Positions} (mint symbol : String)
    (amount cost : ℚ) (now : Int) (h : pmInv ps) (hamt : 0 < amount) :
    pmInv (addPosition ps mint symbol amount cost now) := by
  cases hold : lookupPos ps mint with
  | none =>
    rw [addPosition_lookup_none symbol cost now hamt hold]
    intro e he
    rcases mem_updatePos he with h' | h'
    · subst h'
      refine ⟨hamt, ?_, ?_⟩
      · show amount * (cost / amount) = cost
        have hne : amount ≠ 0 := ne_of_gt hamt
        field_simp
      · show (0 : ℚ) = (cost / amount - cost / amount) * amount
        ring
    · exact h e h'
  | some old =>
    obtain ⟨ho1, ho2, -⟩ := h (mint, old) (lookupPos_mem hold)
    rw [addPosition_lookup_some symbol cost now hamt hold]
    intro e he
    rcases mem_updatePos he with h' | h'
    · subst h'
      refine posInv_recalcPnlPos ?_ ?_
      · show 0 < old.amount + amount
        linarith
      · show (old.amount + amount) * ((old.total_cost + cost) / (old.amount + amount)) =
          old.total_cost + cost
        have hne : old.amount + amount ≠ 0 := by positivity
        field_simp
    · exact h e h'

theorem pmInv_reducePosition {ps : Positions} (mint : String)
    (amount exit_price : ℚ) (now : Int) (h : pmInv ps) :
    pmInv (reducePosition ps mint amount exit_price now).2 := by
  cases hold : lookupPos ps mint with
  | none =>
    rw [reducePosition_lookup_none amount exit_price now hold]
    exact h
  | some position =>
    obtain ⟨hp1, hp2, -⟩ := h (mint, position) (lookupPos_mem hold)
    by_cases hgt : amount > position.amount
    · rw [reducePosition_insufficient exit_price now hold hgt]
      exact h
    · by_cases hge : amount ≥ position.amount
      · rw [reducePosition_full exit_price now hold hgt hge]
        intro e he
        exact h e (mem_removePos he)
      · rw [reducePosition_keep exit_price now hold hgt hge]
        intro e he
        rcases mem_updatePos he with h' | h'
        · subst h'
          refine posInv_recalcPnlPos ?_ ?_
          · show 0 < position.amount - amount
            have := not_le.mp hge
            linarith
          · show (position.amount - amount) * position.cost_basis =
              position.total_cost - position.cost_basis * amount
            linear_combination hp2
        · exact h e h'

theorem keysNodup_addPosition {ps : Positions} (mint symbol : String)
    (amount cost : ℚ) (now : Int) (h : keysNodup ps) :
    keysNodup (addPosition ps mint symbol amount cost now) := by
  by_cases hamt : 0 < amount
  · cases hold : lookupPos ps mint with
    | none =>
      rw [addPosition_lookup_none symbol cost now hamt hold]
      exact keysNodup_updatePos _ _ h
    | some old =>
      rw [addPosition_lookup_some symbol cost now hamt hold]
      exact keysNodup_updatePos _ _ h
  · simp only [addPosition]
    rw [if_pos (not_lt.mp hamt)]
    exact h

theorem keysNodup_reducePosition {ps : Positions} (mint : String)
    (amount exit_price : ℚ) (now : Int) (h : keysNodup ps) :
    keysNodup (reducePosition ps mint amount exit_price now).2 := by
  cases hold : lookupPos ps mint with
  | none =>
    rw [reducePosition_lookup_none amount exit_price now hold]
    exact h
  | some position =>
    by_cases hgt : amount > position.amount
    · rw [reducePosition_insufficient exit_price now hold hgt]
      exact h
    · by_cases hge : amount ≥ position.amount
      · rw [reducePosition_full exit_price now hold hgt hge]
        exact keysNodup_removePos _ h
      · rw [reducePosition_keep exit_price now hold hgt hge]
        exact keysNodup_updatePos _ _ h

/-- One `PositionManager` mutation (add_position or reduce_position). -/
inductive PMOp where
  | add (mint symbol : String) (amount cost : ℚ) (now : Int) : PMOp
  | reduce (mint : String) (amount exit_price : ℚ) (now : Int) : PMOp
deriving DecidableEq

/-- Apply one mutation to the position map. -/
def applyPMOp (ps : Positions) : PMOp → Positions
  | .add mint symbol amount cost now => addPosition ps mint symbol amount cost now
  | .reduce mint amount exit_price now =>
    (reducePosition ps mint amount exit_price now).2

/-- Run a sequence of mutations starting from the empty map. -/
def runPMOps (ops : List PMOp) : Positions := ops.foldl applyPMOp []

/-- The mutation's amount argument is positive. -/
def pmOpPositive : PMOp → Prop
  | .add _ _ amount _ _ => 0 < amount
  | .reduce _ amount _ _ => 0 < amount

instance (op : PMOp) : Decidable (pmOpPositive op) := by
  cases op with
  | add mint symbol amount cost now =>
    exact inferInstanceAs (Decidable (0 < amount))
  | reduce mint amount exit_price now =>
    exact inferInstanceAs (Decidable (0 < amount))

theorem good_applyPMOp {ps : Positions} {op : PMOp} (h1 : pmInv ps)
    (h2 : keysNodup ps) (hpos : pmOpPositive op) :
    pmInv (applyPMOp ps op) ∧ keysNodup (applyPMOp ps op) := by
  cases op with
  | add mint symbol amount cost now =>
    exact ⟨pmInv_addPosition mint symbol amount cost now h1 hpos,
      keysNodup_addPosition mint symbol amount cost now h2⟩
  | reduce mint amount exit_price now =>
    exact ⟨pmInv_reducePosition mint amount exit_price now h1,
      keysNodup_reducePosition mint amount exit_price now h2⟩

theorem good_foldPMOps :
    ∀ (ops : List PMOp) (ps : Positions), (∀ op ∈ ops, pmOpPositive op) →
      pmInv ps → keysNodup ps →
      pmInv (ops.foldl applyPMOp ps) ∧ keysNodup (ops.foldl applyPMOp ps) := by
  intro ops
  induction ops with
  | nil => exact fun ps _ h1 h2 => ⟨h1, h2⟩
  | cons op rest ih =>
    intro ps h h1 h2
    simp only [List.foldl_cons]
    obtain ⟨ha, hb⟩ := good_applyPMOp h1 h2 (h op (List.mem_cons_self _ _))
    exact ih (applyPMOp ps op) (fun o ho => h o (List.mem_cons_of_mem _ ho)) ha hb

/-- C2: after any sequence of `add_position`/`reduce_position` calls with
positive amounts starting from an empty map, every stored position satisfies
`amount * cost_basis = total_cost` (exactly, over `ℚ`) and
`unrealized_pnl = (current_price - cost_basis) * amount`; moreover reducing
any stored position by exactly its full held quantity removes its entry. -/
theorem C2_position_invariants (ops : List PMOp)
    (h : ∀ op ∈ ops, pmOpPositive op) :
    pmInv (runPMOps ops)
    ∧ ∀ (m : String) (p : TokenPosition) (exit_price : ℚ) (now : Int),
        lookupPos (runPMOps ops) m = some p →
        lookupPos (reducePosition (runPMOps ops) m p.amount exit_price now).2 m
          = none := by
  obtain ⟨h1, h2⟩ := good_foldPMOps ops []
    h (fun e he => absurd he (List.not_mem_nil e)) (by simp [keysNodup])
  refine ⟨h1, ?_⟩
  intro m p exit_price now hlook
  rw [reducePosition_full exit_price now hlook (lt_irrefl p.amount) (le_refl p.amount)]
  exact lookupPos_removePos_self h2

/-- C2 witness: build a position of 2 units at total cost 10, then reduce it
by 1 unit at exit price 6; the invariant holds for the resulting map. -/
theorem C2_position_invariants_witness :
    pmInv (runPMOps
      [PMOp.add "X" "X" 2 10 0, PMOp.reduce "X" 1 6 1]) :=
  (C2_position_invariants
    [PMOp.add "X" "X" 2 10 0, PMOp.reduce "X" 1 6 1] (by decide)).1

/-! ## Virtual executor (core/trading/executor.py, core/data_models.py) -/

/-- `TradeAction` enum (data_models.py lines 22-26). -/
inductive TradeAction where
  | BUY
  | SELL
  | SKIP
deriving DecidableEq

/-- `PriceInfo` dataclass (data_models.py lines 60-77), the fields the
trading path reads. -/
structure PriceInfo where
  mint : String
  price_sol : ℚ
  price_usd : ℚ
  liquidity : ℚ
  market_cap : ℚ
deriving DecidableEq

/-- `TradingDecision` dataclass (data_models.py lines 82-99). -/
structure TradingDecision where
  should_trade : Bool
  action : TradeAction
  token_mint : String
  token_symbol : String
  amount : ℚ
  estimated_cost : ℚ
  reason : String
  current_balance : ℚ
  position_amount : Option ℚ := none
deriving DecidableEq

/-- `ExecutionResult` dataclass (data_models.py lines 104-131). -/
structure ExecutionResult where
  success : Bool
  action : TradeAction
  token_mint : String
  token_symbol : String
  executed_price : ℚ
  executed_amount : ℚ
  cost : ℚ
  slippage : ℚ
  balance_before : ℚ
  balance_after : ℚ
  timestamp : Int
  error_message : Option String := none
  realized_pnl : Option ℚ := none
deriving DecidableEq

/-- The executor's mutable state: `self.balance` and the position map owned
by its `PositionManager`. -/
structure ExecState where
  balance : ℚ
  positions : Positions
deriving DecidableEq

/-- `VirtualExecutor._create_error_result` (executor.py lines 640-657). -/
def createErrorResult (st : ExecState) (decision : TradingDecision)
    (msg : String) (now : Int) : ExecutionResult :=
  { success := false, action := decision.action,
    token_mint := decision.token_mint, token_symbol := decision.token_symbol,
    executed_price := 0, executed_amount := 0, cost := 0, slippage := 0,
    balance_before := st.balance, balance_after := st.balance,
    timestamp := now, error_message := some msg, realized_pnl := none }

/-- `VirtualExecutor._create_skip_result` (executor.py lines 623-638). -/
def createSkipResult (st : ExecState) (decision : TradingDecision)
    (reason : String) (now : Int) : ExecutionResult :=
  { success := false, action := TradeAction.SKIP,
    token_mint := decision.token_mint, token_symbol := decision.token_symbol,
    executed_price := 0, executed_amount := 0, cost := 0, slippage := 0,
    balance_before := st.balance, balance_after := st.balance,
    timestamp := now, error_message := some reason, realized_pnl := none }

/-- `VirtualExecutor.execute_buy` (executor.py lines 86-194).  The random
slippage draw of `_calculate_slippage` is passed in as `slippage_percent`;
storage and logging calls have no effect on balance or positions. -/
def executeBuy (st : ExecState) (decision : TradingDecision)
    (price_info : PriceInfo) (slippage_percent : ℚ) (now : Int) :
    ExecutionResult × ExecState :=
  let executed_price := price_info.price_usd * (1 + slippage_percent)
  let executed_amount := decision.amount
  let actual_cost := executed_price * executed_amount
  if actual_cost > st.balance then
    (createErrorResult st decision "余额不足" now, st)
  else
    let balance_before := st.balance
    let newBalance := st.balance - actual_cost
    let newPositions := addPosition st.positions decision.token_mint
      decision.token_symbol executed_amount actual_cost now
    ({ success := true, action := TradeAction.BUY,
       token_mint := decision.token_mint,
       token_symbol := decision.token_symbol,
       executed_price := executed_price, executed_amount := executed_amount,
       cost := actual_cost, slippage := slippage_percent,
       balance_before := balance_before, balance_after := newBalance,
       timestamp := now, error_message := none, realized_pnl := none },
     { balance := newBalance, positions := newPositions })

/-- `VirtualExecutor.execute_sell` (executor.py lines 196-321). -/
def executeSell (st : ExecState) (decision : TradingDecision)
    (price_info : PriceInfo) (slippage_percent : ℚ) (now : Int) :
    ExecutionResult × ExecState :=
  match lookupPos st.positions decision.token_mint with
  | none => (createErrorResult st decision "没有持仓" now, st)
  | some position =>
    if decision.amount > position.amount then
      (createErrorResult st decision "持仓不足" now, st)
    else
      let executed_price := price_info.price_usd * (1 - slippage_percent)
      let executed_amount := decision.amount
      let actual_income := executed_price * executed_amount
      let balance_before := st.balance
      let newBalance := st.balance + actual_income
      let rp := reducePosition st.positions decision.token_mint
        executed_amount executed_price now
      ({ success := true, action := TradeAction.SELL,
         token_mint := decision.token_mint,
         token_symbol := decision.token_symbol,
         executed_price := executed_price, executed_amount := executed_amount,
         cost := -actual_income, slippage := slippage_percent,
         balance_before := balance_before, balance_after := newBalance,
         timestamp := now, error_message := none, realized_pnl := some rp.1 },
       { balance := newBalance, positions := rp.2 })

/-- `VirtualExecutor.execute` (executor.py lines 64-84). -/
def executorExecute (st : ExecState) (decision : TradingDecision)
    (price_info : PriceInfo) (slippage_percent : ℚ) (now : Int) :
    ExecutionResult × ExecState :=
  if ¬decision.should_trade then
    (createSkipResult st decision "决策不交易" now, st)
  else
    match decision.action with
    | TradeAction.BUY => executeBuy st decision price_info slippage_percent now
    | TradeAction.SELL => executeSell st decision price_info slippage_percent now
    | TradeAction.SKIP => (createErrorResult st decision "未知的交易动作" now, st)

theorem executeBuy_reject {st : ExecState} {decision : TradingDecision}
    {price_info : PriceInfo} {slippage_percent : ℚ} (now : Int)
    (h : price_info.price_usd * (1 + slippage_percent) * decision.amount >
      st.balance) :
    executeBuy st decision price_info slippage_percent now =
      (createErrorResult st decision "余额不足" now, st) := by
  simp only [executeBuy]
  rw [if_pos h]

theorem executeBuy_accept {st : ExecState} {decision : TradingDecision}
    {price_info : PriceInfo} {slippage_percent : ℚ} (now : Int)
    (h : ¬price_info.price_usd * (1 + slippage_percent) * decision.amount >
      st.balance) :
    executeBuy st decision price_info slippage_percent now =
      ({ success := true, action := TradeAction.BUY,
         token_mint := decision.token_mint,
         token_symbol := decision.token_symbol,
         executed_price := price_info.price_usd * (1 + slippage_percent),
         executed_amount := decision.amount,
         cost := price_info.price_usd * (1 + slippage_percent) * decision.amount,
         slippage := slippage_percent, balance_before := st.balance,
         balance_after := st.balance -
           price_info.price_usd * (1 + slippage_percent) * decision.amount,
         timestamp := now, error_message := none, realized_pnl := none },
       { balance := st.balance -
           price_info.price_usd * (1 + slippage_percent) * decision.amount,
         positions := addPosition st.positions decision.token_mint
           decision.token_symbol decision.amount
           (price_info.price_usd * (1 + slippage_percent) * decision.amount)
           now }) := by
  simp only [executeBuy]
  rw [if_neg h]

theorem executeSell_noPosition {st : ExecState} {decision : TradingDecision}
    {price_info : PriceInfo} {slippage_percent : ℚ} (now : Int)
    (h : lookupPos st.positions decision.token_mint = none) :
    executeSell st decision price_info slippage_percent now =
      (createErrorResult st decision "没有持仓" now, st) := by
  simp only [executeSell]
  rw [h]

theorem executeSell_insufficient {st : ExecState} {decision : TradingDecision}
    {price_info : PriceInfo} {slippage_percent : ℚ} (now : Int)
    {position : TokenPosition}
    (h : lookupPos st.positions decision.token_mint = some position)
    (hgt : decision.amount > position.amount) :
    executeSell st decision price_info slippage_percent now =
      (createErrorResult st decision "持仓不足" now, st) := by
  simp only [executeSell]
  rw [h]
  exact if_pos hgt

theorem executeSell_accept {st : ExecState} {decision : TradingDecision}
    {price_info : PriceInfo} {slippage_percent : ℚ} (now : Int)
    {position : TokenPosition}
    (h : lookupPos st.positions decision.token_mint = some position)
    (hng : ¬decision.amount > position.amount) :
    executeSell st decision price_info slippage_percent now =
      ({ success := true, action := TradeAction.SELL,
         token_mint := decision.token_mint,
         token_symbol := decision.token_symbol,
         executed_price := price_info.price_usd * (1 - slippage_percent),
         executed_amount := decision.amount,
         cost := -(price_info.price_usd * (1 - slippage_percent) * decision.amount),
         slippage := slippage_percent, balance_before := st.balance,
         balance_after := st.balance +
           price_info.price_usd * (1 - slippage_percent) * decision.amount,
         timestamp := now, error_message := none,
         realized_pnl := some (reducePosition st.positions decision.token_mint
           decision.amount (price_info.price_usd * (1 - slippage_percent)) now).1 },
       { balance := st.balance +
           price_info.price_usd * (1 - slippage_percent) * decision.amount,
         positions := (reducePosition st.positions decision.token_mint
           decision.amount (price_info.price_usd * (1 - slippage_percent)) now).2 }) := by
  simp only [executeSell]
  rw [h]
  exact if_neg hng

/-- C1: `execute_buy` never succeeds when the post-slippage cost
`executed_price * quantity` exceeds the balance before the call;
`execute_sell` never succeeds without a stored position whose amount covers
the requested quantity; and every failing call returns `success = false`
with an `error_message` while leaving balance and positions unchanged. -/
theorem C1_executor_guards (st : ExecState) (decision : TradingDecision)
    (price_info : PriceInfo) (slippage_percent : ℚ) (now : Int) :
    ((executeBuy st decision price_info slippage_percent now).1.success = true →
      (executeBuy st decision price_info slippage_percent now).1.executed_price *
        (executeBuy st decision price_info slippage_percent now).1.executed_amount
        ≤ st.balance)
    ∧ ((executeBuy st decision price_info slippage_percent now).1.success = false →
        ((executeBuy st decision price_info slippage_percent now).1.error_message).isSome
          = true ∧
        (executeBuy st decision price_info slippage_percent now).2 = st)
    ∧ ((executeSell st decision price_info slippage_percent now).1.success = true →
        ∃ p, lookupPos st.positions decision.token_mint = some p ∧
          decision.amount ≤ p.amount)
    ∧ ((executeSell st decision price_info slippage_percent now).1.success = false →
        ((executeSell st decision price_info slippage_percent now).1.error_message).isSome
          = true ∧
        (executeSell st decision price_info slippage_percent now).2 = st) := by
  refine ⟨?_, ?_, ?_, ?_⟩
  · by_cases hb : price_info.price_usd * (1 + slippage_percent) * decision.amount >
        st.balance
    · rw [executeBuy_reject now hb]
      intro hs
      simp [createErrorResult] at hs
    · rw [executeBuy_accept now hb]
      intro _
      show price_info.price_usd * (1 + slippage_percent) * decision.amount ≤ st.balance
      exact not_lt.mp hb
  · by_cases hb : price_info.price_usd * (1 + slippage_percent) * decision.amount >
        st.balance
    · rw [executeBuy_reject now hb]
      exact fun _ => ⟨rfl, rfl⟩
    · rw [executeBuy_accept now hb]
      intro hs
      simp at hs
  · cases hlook : lookupPos st.positions decision.token_mint with
    | none =>
      rw [executeSell_noPosition now hlook]
      intro hs
      simp [createErrorResult] at hs
    | some p =>
      by_cases hgt : decision.amount > p.amount
      · rw [executeSell_insufficient now hlook hgt]
        intro hs
        simp [createErrorResult] at hs
      · rw [executeSell_accept now hlook hgt]
        intro _
        exact ⟨p, rfl, not_lt.mp hgt⟩
  · cases hlook : lookupPos st.positions decision.token_mint with
    | none =>
      rw [executeSell_noPosition now hlook]
      exact fun _ => ⟨rfl, rfl⟩
    | some p =>
      by_cases hgt : decision.amount > p.amount
      · rw [executeSell_insufficient now hlook hgt]
        exact fun _ => ⟨rfl, rfl⟩
      · rw [executeSell_accept now hlook hgt]
        intro hs
        simp at hs

/-- Concrete decision used to exercise the executor's rejection paths:
buy or sell 100 tokens against a $10 balance and an empty position map. -/
def demoDecision : TradingDecision :=
  { should_trade := true, action := TradeAction.BUY, token_mint := "X",
    token_symbol := "X", amount := 100, estimated_cost := 100, reason := "",
    current_balance := 10 }

/-- Concrete $1 quote for the executor scenarios. -/
def demoPrice : PriceInfo :=
  { mint := "X", price_sol := 0, price_usd := 1, liquidity := 0,
    market_cap := 0 }

/-- C1 witness: a buy costing $100 against a $10 balance and a sell with no
stored position are both rejected with an error message and leave the state
untouched. -/
theorem C1_executor_guards_witness :
    (((executeBuy ⟨10, []⟩ demoDecision demoPrice 0 0).1.error_message).isSome = true
      ∧ (executeBuy ⟨10, []⟩ demoDecision demoPrice 0 0).2 = ⟨10, []⟩)
    ∧ (((executeSell ⟨10, []⟩ demoDecision demoPrice 0 0).1.error_message).isSome = true
      ∧ (executeSell ⟨10, []⟩ demoDecision demoPrice 0 0).2 = ⟨10, []⟩) := by
  have hb : demoPrice.price_usd * (1 + (0 : ℚ)) * demoDecision.amount >
      (ExecState.mk 10 []).balance := by
    norm_num [demoPrice, demoDecision]
  have hbuy : (executeBuy ⟨10, []⟩ demoDecision demoPrice 0 0).1.success = false := by
    rw [executeBuy_reject 0 hb]
    rfl
  have hlook : lookupPos (ExecState.mk 10 []).positions demoDecision.token_mint
      = none := rfl
  have hsell : (executeSell ⟨10, []⟩ demoDecision demoPrice 0 0).1.success = false := by
    rw [executeSell_noPosition 0 hlook]
    rfl
  exact ⟨(C1_executor_guards ⟨10, []⟩ demoDecision demoPrice 0 0).2.1 hbuy,
    (C1_executor_guards ⟨10, []⟩ demoDecision demoPrice 0 0).2.2.2 hsell⟩

/-! ## Signal extraction (core/parsing/signal_parser.py) -/

/-- One entry of a Helius `tokenTransfers` list, the fields the extraction
reads. -/
structure TokenTransfer where
  mint : String
  fromUserAccount : String
  toUserAccount : String
  tokenAmount : ℚ
deriving DecidableEq

/-- The wrapped-SOL mint ignored by the extraction (signal_parser.py line 36). -/
def wsolMint : String := "So11111111111111111111111111111111111111112"

/-- `TradeSignal` dataclass (data_models.py lines 38-55); `token_mint` can be
Python `None` when no transfer matched. -/
structure TradeSignal where
  signature : String
  action : String
  token_mint : Option String
  token_symbol : String
  amount : ℚ
  sol_amount : ℚ
  timestamp : Int
deriving DecidableEq

/-- The loop body of `SignalParser._calculate_token_change`
(signal_parser.py lines 130-147).  Note it OVERWRITES the running value on
each matching transfer instead of accumulating. -/
def tokenChangeStep (target_wallet : String)
    (acc : ℚ × Option String × String) (transfer : TokenTransfer) :
    ℚ × Option String × String :=
  if transfer.mint = wsolMint then acc
  else if transfer.toUserAccount = target_wallet then
    (transfer.tokenAmount, some transfer.mint, transfer.mint.take 8)
  else if transfer.fromUserAccount = target_wallet then
    (-transfer.tokenAmount, some transfer.mint, transfer.mint.take 8)
  else acc

/-- `SignalParser._calculate_token_change` (signal_parser.py lines 116-149);
returns `(token_change, token_mint, token_symbol)`. -/
def calculateTokenChange (target_wallet : String)
    (token_transfers : List TokenTransfer) : ℚ × Option String × String :=
  token_transfers.foldl (tokenChangeStep target_wallet) (0, none, "Unknown")

/-- `SignalParser._create_signal` with `_create_buy_signal` and
`_create_sell_signal` inlined (signal_parser.py lines 151-234). -/
def createSignal (sol_change token_change : ℚ) (token_mint : Option String)
    (token_symbol signature : String) (timestamp : Int) : Option TradeSignal :=
  if token_change > 0 then
    some { signature := signature, action := "BUY", token_mint := token_mint,
           token_symbol := token_symbol, amount := token_change,
           sol_amount := |sol_change|, timestamp := timestamp }
  else if token_change < 0 then
    some { signature := signature, action := "SELL", token_mint := token_mint,
           token_symbol := token_symbol, amount := |token_change|,
           sol_amount := |sol_change|, timestamp := timestamp }
  else none

/-- The net target-asset delta as the specification words it: the sum of
incoming minus outgoing amounts over the non-WSOL token transfers of the
tracked wallet.  Stated for comparison with `calculateTokenChange`. -/
def specNetTokenDelta (target_wallet : String)
    (token_transfers : List TokenTransfer) : ℚ :=
  token_transfers.foldl
    (fun acc transfer =>
      if transfer.mint = wsolMint then acc
      else if transfer.toUserAccount = target_wallet then
        acc + transfer.tokenAmount
      else if transfer.fromUserAccount = target_wallet then
        acc - transfer.tokenAmount
      else acc)
    0

/-- A non-WSOL transfer that moves the target asset into or out of the
tracked wallet. -/
def transferTouchesWallet (target_wallet : String) (t : TokenTransfer) : Bool :=
  !(t.mint == wsolMint) &&
    (t.toUserAccount == target_wallet || t.fromUserAccount == target_wallet)

/-- The signed amount of one transfer: positive when the wallet receives. -/
def transferSignedAmount (target_wallet : String) (t : TokenTransfer) : ℚ :=
  if t.toUserAccount = target_wallet then t.tokenAmount else -t.tokenAmount

theorem tokenChangeStep_irrelevant {target_wallet : String} {t : TokenTransfer}
    (h : transferTouchesWallet target_wallet t = false)
    (acc : ℚ × Option String × String) :
    tokenChangeStep target_wallet acc t = acc := by
  simp only [transferTouchesWallet, Bool.and_eq_false_iff, Bool.not_eq_false',
    Bool.or_eq_false_iff, beq_iff_eq, beq_eq_false_iff_ne] at h
  unfold tokenChangeStep
  rcases h with h | ⟨h1, h2⟩
  · rw [if_pos h]
  · by_cases hm : t.mint = wsolMint
    · rw [if_pos hm]
    · rw [if_neg hm, if_neg h1, if_neg h2]

theorem tokenChangeStep_relevant {target_wallet : String} {t : TokenTransfer}
    (h : transferTouchesWallet target_wallet t = true)
    (acc : ℚ × Option String × String) :
    (tokenChangeStep target_wallet acc t).1 =
      transferSignedAmount target_wallet t := by
  simp only [transferTouchesWallet, Bool.and_eq_true, Bool.not_eq_true',
    beq_eq_false_iff_ne, Bool.or_eq_true, beq_iff_eq] at h
  obtain ⟨hm, hw⟩ := h
  unfold tokenChangeStep transferSignedAmount
  rw [if_neg hm]
  by_cases hto : t.toUserAccount = target_wallet
  · rw [if_pos hto, if_pos hto]
  · rw [if_neg hto, if_neg hto]
    rcases hw with hw | hw
    · exact absurd hw hto
    · rw [if_pos hw]

theorem foldl_tokenChangeStep_fst (target_wallet : String)
    (l : List TokenTransfer) :
    ∀ acc : ℚ × Option String × String,
      (l.foldl (tokenChangeStep target_wallet) acc).1 =
        ((l.filter (transferTouchesWallet target_wallet)).getLast?).elim acc.1
          (transferSignedAmount target_wallet) := by
  induction l using List.reverseRecOn with
  | nil => intro acc; rfl
  | append_singleton l t ih =>
    intro acc
    rw [List.foldl_append, List.filter_append]
    simp only [List.foldl_cons, List.foldl_nil, List.filter_cons, List.filter_nil]
    by_cases ht : transferTouchesWallet target_wallet t = true
    · rw [if_pos ht, List.getLast?_concat]
      exact tokenChangeStep_relevant ht _
    · have ht' : transferTouchesWallet target_wallet t = false :=
        Bool.eq_false_iff.mpr ht
      rw [if_neg ht, List.append_nil, tokenChangeStep_irrelevant ht']
      exact ih acc

/-- C7 (amended): the parser's net target-asset delta is NOT a sum; it is
the signed amount of the LAST non-WSOL token transfer touching the tracked
wallet (positive when incoming, negative when outgoing, `0` when none
matches).  The sign of that value determines the direction: positive gives
a BUY signal, negative a SELL signal (with the absolute value as amount),
and zero yields no signal.  WSOL legs are ignored throughout. -/
theorem C7_token_delta (target_wallet : String)
    (token_transfers : List TokenTransfer) (sol_change : ℚ)
    (token_mint : Option String) (token_symbol signature : String)
    (timestamp : Int) :
    ((calculateTokenChange target_wallet token_transfers).1 =
      ((token_transfers.filter (transferTouchesWallet target_wallet)).getLast?).elim
        0 (transferSignedAmount target_wallet))
    ∧ ((calculateTokenChange target_wallet token_transfers).1 > 0 →
        createSignal sol_change (calculateTokenChange target_wallet token_transfers).1
            token_mint token_symbol signature timestamp =
          some { signature := signature, action := "BUY",
                 token_mint := token_mint, token_symbol := token_symbol,
                 amount := (calculateTokenChange target_wallet token_transfers).1,
                 sol_amount := |sol_change|, timestamp := timestamp })
    ∧ ((calculateTokenChange target_wallet token_transfers).1 < 0 →
        createSignal sol_change (calculateTokenChange target_wallet token_transfers).1
            token_mint token_symbol signature timestamp =
          some { signature := signature, action := "SELL",
                 token_mint := token_mint, token_symbol := token_symbol,
                 amount := |(calculateTokenChange target_wallet token_transfers).1|,
                 sol_amount := |sol_change|, timestamp := timestamp })
    ∧ ((calculateTokenChange target_wallet token_transfers).1 = 0 →
        createSignal sol_change (calculateTokenChange target_wallet token_transfers).1
            token_mint token_symbol signature timestamp = none) := by
  refine ⟨foldl_tokenChangeStep_fst target_wallet token_transfers _, ?_, ?_, ?_⟩
  · intro hpos
    unfold createSignal
    rw [if_pos hpos]
  · intro hneg
    unfold createSignal
    rw [if_neg (by exact not_lt.mpr (le_of_lt hneg)), if_pos hneg]
  · intro hzero
    unfold createSignal
    rw [hzero]
    norm_num

/-- Two non-WSOL transfers of the same asset for the tracked wallet `"w"`:
5 units in, then 2 units out. -/
def demoTransfers : List TokenTransfer :=
  [{ mint := "XYZ", fromUserAccount := "pool", toUserAccount := "w",
     tokenAmount := 5 },
   { mint := "XYZ", fromUserAccount := "w", toUserAccount := "pool",
     tokenAmount := 2 }]

/-- C7 counterexample to the claim as stated: on a swap leg list with +5 in
and -2 out of the same asset, the sum of incoming minus outgoing is +3 (a
BUY under the claim), but the code's `_calculate_token_change` overwrites
instead of summing and returns -2, producing a SELL signal. -/
theorem C7_counterexample :
    (calculateTokenChange "w" demoTransfers).1 = -2
    ∧ specNetTokenDelta "w" demoTransfers = 3
    ∧ (calculateTokenChange "w" demoTransfers).1 < 0
    ∧ 0 < specNetTokenDelta "w" demoTransfers := by
  have h1 : (calculateTokenChange "w" demoTransfers).1 = -2 := by decide
  have h2 : specNetTokenDelta "w" demoTransfers = 3 := by
    show (0 : ℚ) + 5 - 2 = 3
    norm_num
  exact ⟨h1, h2, by rw [h1]; norm_num, by rw [h2]; norm_num⟩

/-- C7 witness: instantiating the amended theorem on the two-transfer list:
the computed delta is the last matching transfer's signed amount (-2), and
being negative it yields a SELL signal. -/
theorem C7_token_delta_witness :
    createSignal (-1) (calculateTokenChange "w" demoTransfers).1 (some "XYZ")
        "XYZ" "sig" 0 =
      some { signature := "sig", action := "SELL", token_mint := some "XYZ",
             token_symbol := "XYZ",
             amount := |(calculateTokenChange "w" demoTransfers).1|,
             sol_amount := |(-1 : ℚ)|, timestamp := 0 } :=
  (C7_token_delta "w" demoTransfers (-1) (some "XYZ") "XYZ" "sig" 0).2.2.1
    (by decide)

/-! ## Trading strategy sizing (core/trading/strategy.py, config.py) -/

/-- `TradingConfig.USE_FIXED_AMOUNT` (config.py line 31): the configuration
selects the fixed-notional sizing mode. -/
def useFixedAmount : Bool := true

/-- `TradingConfig.FIXED_TRADE_AMOUNT` (config.py line 32). -/
def fixedTradeAmount : ℚ := 50

/-- `TradingConfig.TRADE_RATIO` (config.py line 35). -/
def tradeRatioCfg : ℚ := 10 / 100

/-- `TradingConfig.MIN_TRADE_AMOUNT` (config.py lines 36-37). -/
def minTradeAmount : ℚ := 10

/-- `TradingStrategy._calculate_buy_amount` (strategy.py lines 214-240):
returns `(amount, estimated_cost)`.  The method reads only
`self.trade_ratio` and `self.min_trade_amount`; the strategy never consults
`USE_FIXED_AMOUNT` or `FIXED_TRADE_AMOUNT`. -/
def calculateBuyAmount (current_balance price_usd : ℚ) : ℚ × ℚ :=
  let available_funds := current_balance * tradeRatioCfg
  if available_funds < minTradeAmount then (0, 0)
  else (available_funds / price_usd, available_funds)

/-- C6 evidence (code bug): with the shipped configuration
(`USE_FIXED_AMOUNT = True`, `FIXED_TRADE_AMOUNT = 50`), sizing a BUY at
balance $1000 and price $1 allocates `1000 * TRADE_RATIO = $100`, not the
configured fixed $50 — the mode switch is ignored by
`_calculate_buy_amount`.  The minimum-trade rejection and
`quantity = notional / price` parts do behave as claimed. -/
theorem C6_sizing_ignores_fixed_mode :
    useFixedAmount = true
    ∧ (calculateBuyAmount 1000 1).2 = 1000 * tradeRatioCfg
    ∧ (calculateBuyAmount 1000 1).2 = 100
    ∧ (calculateBuyAmount 1000 1).2 ≠ fixedTradeAmount
    ∧ (calculateBuyAmount 1000 1).1 = (calculateBuyAmount 1000 1).2 / 1
    ∧ calculateBuyAmount 50 1 = (0, 0) := by
  have hav : (1000 : ℚ) * tradeRatioCfg = 100 := by norm_num [tradeRatioCfg]
  have heq : calculateBuyAmount 1000 1 = (100, 100) := by
    simp only [calculateBuyAmount, hav]
    rw [if_neg (by norm_num [minTradeAmount])]
    norm_num
  have hav5 : (50 : ℚ) * tradeRatioCfg = 5 := by norm_num [tradeRatioCfg]
  refine ⟨rfl, ?_, ?_, ?_, ?_, ?_⟩
  · rw [heq, hav]
  · rw [heq]
  · rw [heq]
    norm_num [fixedTradeAmount]
  · rw [heq]
    norm_num
  · simp only [calculateBuyAmount, hav5]
    rw [if_pos (by norm_num [minTradeAmount])]

/-! ## Per-position risk checks (core/trading/risk_controller.py lines 123-231) -/

/-- `RiskActionType` enum (data_models.py lines 29-33). -/
inductive RiskActionType where
  | STOP_LOSS
  | TAKE_PROFIT
  | TIME_STOP
deriving DecidableEq

/-- `RiskAction` dataclass (data_models.py lines 172-189). -/
structure RiskAction where
  action_type : RiskActionType
  mint : String
  symbol : String
  current_pnl_percent : ℚ
  holding_duration : Int
  suggested_amount : ℚ
deriving DecidableEq

/-- The per-position risk configuration loaded by the controller
(risk_controller.py lines 52-56). -/
structure PositionRiskCfg where
  enable_stop_loss : Bool
  enable_take_profit : Bool
  stop_loss_percent : ℚ
  take_profit_percent : ℚ
  max_hold_time : Int
deriving DecidableEq

/-- `RiskConfig` per-position values (config.py lines 67-71). -/
def defaultPositionRiskCfg : PositionRiskCfg :=
  { enable_stop_loss := false, enable_take_profit := false,
    stop_loss_percent := -(30 / 100), take_profit_percent := 1,
    max_hold_time := 86400 }

/-- `Position.holding_duration` (data_models.py lines 163-167). -/
def holdingDuration (p : TokenPosition) (now : Int) : Int := now - p.entry_time

/-- `RiskController._check_stop_loss` (risk_controller.py lines 167-187). -/
def checkStopLoss (cfg : PositionRiskCfg) (p : TokenPosition) (now : Int) :
    Option RiskAction :=
  if p.unrealized_pnl_percent ≤ cfg.stop_loss_percent then
    some { action_type := RiskActionType.STOP_LOSS, mint := p.mint,
           symbol := p.symbol,
           current_pnl_percent := p.unrealized_pnl_percent,
           holding_duration := holdingDuration p now,
           suggested_amount := p.amount }
  else none

/-- `RiskController._check_take_profit` (risk_controller.py lines 189-209). -/
def checkTakeProfit (cfg : PositionRiskCfg) (p : TokenPosition) (now : Int) :
    Option RiskAction :=
  if p.unrealized_pnl_percent ≥ cfg.take_profit_percent then
    some { action_type := RiskActionType.TAKE_PROFIT, mint := p.mint,
           symbol := p.symbol,
           current_pnl_percent := p.unrealized_pnl_percent,
           holding_duration := holdingDuration p now,
           suggested_amount := p.amount }
  else none

/-- `RiskController._check_time_stop` (risk_controller.py lines 211-231). -/
def checkTimeStop (cfg : PositionRiskCfg) (p : TokenPosition) (now : Int) :
    Option RiskAction :=
  if holdingDuration p now ≥ cfg.max_hold_time then
    some { action_type := RiskActionType.TIME_STOP, mint := p.mint,
           symbol := p.symbol,
           current_pnl_percent := p.unrealized_pnl_percent,
           holding_duration := holdingDuration p now,
           suggested_amount := p.amount }
  else none

/-- The loop body of `check_all_positions` (risk_controller.py lines
142-163): priority order stop-loss, take-profit, time-stop, `continue`
after the first hit; the time-stop check is gated by `enable_stop_loss`
(the source folds time-stops into the stop-loss toggle). -/
def checkPositionRisk (cfg : PositionRiskCfg) (p : TokenPosition) (now : Int) :
    Option RiskAction :=
  match (if cfg.enable_stop_loss then checkStopLoss cfg p now else none) with
  | some a => some a
  | none =>
    match (if cfg.enable_take_profit then checkTakeProfit cfg p now else none) with
    | some a => some a
    | none => if cfg.enable_stop_loss then checkTimeStop cfg p now else none

/-- `RiskController.check_all_positions` (risk_controller.py lines 123-165). -/
def checkAllPositions (cfg : PositionRiskCfg) (positions : List TokenPosition)
    (now : Int) : List RiskAction :=
  if cfg.enable_stop_loss = false ∧ cfg.enable_take_profit = false then []
  else positions.filterMap (fun p => checkPositionRisk cfg p now)

/-- The shipped configuration with both per-position toggles switched on. -/
def enabledPositionRiskCfg : PositionRiskCfg :=
  { defaultPositionRiskCfg with
    enable_stop_loss := true,
    enable_take_profit := true }

/-- A position bought at cost basis $100 whose mark moved to $99 (a -1%
loss), with PnL fields produced by `_recalculate_pnl`. -/
def demoLossPosition : TokenPosition :=
  recalcPnlPos
    { mint := "XYZ", symbol := "XYZ", amount := 1, cost_basis := 100,
      total_cost := 100, current_price := 99, unrealized_pnl := 0,
      unrealized_pnl_percent := 0, entry_time := 0, last_update_time := 0 }

/-- C5 evidence (code bug): `_recalculate_pnl` stores
`unrealized_pnl_percent` in percentage points (-1 for a -1% loss) while
`STOP_LOSS_PERCENT = -0.30` is a fraction, so `_check_stop_loss` compares
-1 ≤ -0.30 and emits a forced stop-loss exit for a position whose
fractional loss (-1/100) is far above the claimed -30% threshold. -/
theorem C5_stop_loss_unit_mismatch :
    demoLossPosition.unrealized_pnl_percent = -1
    ∧ (demoLossPosition.current_price - demoLossPosition.cost_basis) /
        demoLossPosition.cost_basis = -(1 / 100)
    ∧ ¬((demoLossPosition.current_price - demoLossPosition.cost_basis) /
        demoLossPosition.cost_basis ≤ enabledPositionRiskCfg.stop_loss_percent)
    ∧ (checkAllPositions enabledPositionRiskCfg [demoLossPosition] 0).map
        (fun a => a.action_type) = [RiskActionType.STOP_LOSS] := by
  have hpct : demoLossPosition.unrealized_pnl_percent = -1 := by
    show (if (0 : ℚ) < 100 then (((99 : ℚ) - 100) / 100) * 100 else 0) = -1
    rw [if_pos (by norm_num)]
    norm_num
  have hstop : checkStopLoss enabledPositionRiskCfg demoLossPosition 0 =
      some { action_type := RiskActionType.STOP_LOSS,
             mint := demoLossPosition.mint, symbol := demoLossPosition.symbol,
             current_pnl_percent := demoLossPosition.unrealized_pnl_percent,
             holding_duration := holdingDuration demoLossPosition 0,
             suggested_amount := demoLossPosition.amount } := by
    unfold checkStopLoss
    rw [if_pos ?cond]
    case cond =>
      rw [hpct]
      show (-1 : ℚ) ≤ -(30 / 100)
      norm_num
  have hrisk : checkPositionRisk enabledPositionRiskCfg demoLossPosition 0 =
      some { action_type := RiskActionType.STOP_LOSS,
             mint := demoLossPosition.mint, symbol := demoLossPosition.symbol,
             current_pnl_percent := demoLossPosition.unrealized_pnl_percent,
             holding_duration := holdingDuration demoLossPosition 0,
             suggested_amount := demoLossPosition.amount } := by
    unfold checkPositionRisk
    rw [if_pos (show enabledPositionRiskCfg.enable_stop_loss = true from rfl),
      hstop]
  refine ⟨hpct, ?_, ?_, ?_⟩
  · show ((99 : ℚ) - 100) / 100 = -(1 / 100)
    norm_num
  · show ¬(((99 : ℚ) - 100) / 100 ≤ -(30 / 100))
    norm_num
  · unfold checkAllPositions
    rw [if_neg (by simp [enabledPositionRiskCfg, defaultPositionRiskCfg])]
    simp only [List.filterMap_cons, List.filterMap_nil, hrisk]
    rfl

/-! ## Signal-to-execution pipeline (main.py, trading_coordinator.py,
transaction_logger.py, strategy.py) -/

/-- One entry of a Helius `nativeTransfers` list (lamports). -/
structure NativeTransfer where
  fromUserAccount : String
  toUserAccount : String
  amount : ℚ
deriving DecidableEq

/-- A raw Helius transaction record, the fields the pipeline reads. -/
structure RawTx where
  signature : String
  txType : String
  timestamp : Int
  nativeTransfers : List NativeTransfer
  tokenTransfers : List TokenTransfer
deriving DecidableEq

/-- `SignalParser._calculate_sol_change` (signal_parser.py lines 94-114). -/
def calculateSolChange (target_wallet : String)
    (native_transfers : List NativeTransfer) : ℚ :=
  native_transfers.foldl
    (fun sol_change transfer =>
      if transfer.fromUserAccount = target_wallet then
        sol_change - transfer.amount / 1000000000
      else if transfer.toUserAccount = target_wallet then
        sol_change + transfer.amount / 1000000000
      else sol_change)
    0

/-- Substring containment over character lists, for Python's `in`. -/
def containsSWAP : List Char → Bool
  | [] => false
  | c :: rest => "SWAP".toList.isPrefixOf (c :: rest) || containsSWAP rest

/-- `SignalParser._is_swap_transaction` (signal_parser.py lines 81-92):
Python `"SWAP" in tx_type`. -/
def isSwapTransaction (tx : RawTx) : Bool :=
  containsSWAP tx.txType.toList

/-- `SignalParser.parse` (signal_parser.py lines 40-79). -/
def parseSignals (target_wallet : String) (tx : RawTx) : List TradeSignal :=
  if isSwapTransaction tx = false then []
  else
    let sol_change := calculateSolChange target_wallet tx.nativeTransfers
    let tc := calculateTokenChange target_wallet tx.tokenTransfers
    match createSignal sol_change tc.1 tc.2.1 tc.2.2 tx.signature tx.timestamp with
    | some s => [s]
    | none => []

/-- `TradingConfig.ENABLE_FILTERING` (config.py line 40). -/
def enableFiltering : Bool := false

/-- `TradingConfig.BLACKLIST_TOKENS` (config.py line 48). -/
def blacklistTokens : List String := []

/-- `TradingConfig.MIN_LIQUIDITY` (config.py line 43). -/
def minLiquidity : ℚ := 5000

/-- `TradingConfig.MIN_MARKET_CAP` (config.py line 44). -/
def minMarketCap : ℚ := 50000

/-- `TradingConfig.MAX_MARKET_CAP` (config.py line 45). -/
def maxMarketCap : ℚ := 5000000

/-- `TradingStrategy._check_filters` (strategy.py lines 181-212); since the
configured ceiling is finite the `max_market_cap < inf` guard is always
taken. -/
def checkFilters (signal : TradeSignal) (price_info : PriceInfo) :
    Bool × String :=
  if signal.token_mint.elim false (fun m => blacklistTokens.contains m) = true then
    (false, "代币在黑名单中")
  else if 0 < minLiquidity ∧ price_info.liquidity < minLiquidity then
    (false, "流动性不足")
  else if 0 < minMarketCap ∧ price_info.market_cap < minMarketCap then
    (false, "市值过低")
  else if price_info.market_cap > maxMarketCap then
    (false, "市值过高")
  else (true, "通过所有筛选")

/-- `TradingStrategy._create_skip_decision` (strategy.py lines 309-333). -/
def skipDecision (signal : TradeSignal) (current_balance : ℚ)
    (reason : String) : TradingDecision :=
  { should_trade := false, action := TradeAction.SKIP,
    token_mint := signal.token_mint.getD "",
    token_symbol := signal.token_symbol, amount := 0, estimated_cost := 0,
    reason := reason, current_balance := current_balance }

/-- `TradingStrategy.decide` with `_decide_buy` and `_decide_sell` inlined
(strategy.py lines 54-179).  The price oracle is a pure parameter; a Python
`None` mint is modelled as the empty-string key, which no stored position
uses.  The human-readable reason strings are abbreviated. -/
def strategyDecide (oracle : String → Option PriceInfo)
    (positions : Positions) (signal : TradeSignal) (current_balance : ℚ) :
    TradingDecision :=
  match signal.token_mint.bind oracle with
  | none => skipDecision signal current_balance "无法获取价格信息"
  | some price_info =>
    if signal.action = "BUY" then
      if enableFiltering = true ∧ (checkFilters signal price_info).1 = false then
        skipDecision signal current_balance (checkFilters signal price_info).2
      else
        let ac := calculateBuyAmount current_balance price_info.price_usd
        if ac.1 ≤ 0 then
          skipDecision signal current_balance "交易金额不足"
        else
          { should_trade := true, action := TradeAction.BUY,
            token_mint := signal.token_mint.getD "",
            token_symbol := signal.token_symbol, amount := ac.1,
            estimated_cost := ac.2, reason := "跟随聪明钱买入",
            current_balance := current_balance }
    else if signal.action = "SELL" then
      match lookupPos positions (signal.token_mint.getD "") with
      | none => skipDecision signal current_balance "没有持仓，无法卖出"
      | some position =>
        { should_trade := true, action := TradeAction.SELL,
          token_mint := signal.token_mint.getD "",
          token_symbol := signal.token_symbol, amount := position.amount,
          estimated_cost := position.amount * price_info.price_usd,
          reason := "跟随聪明钱卖出", current_balance := current_balance,
          position_amount := some position.amount }
    else skipDecision signal current_balance "未知的信号类型"

/-- `TransactionLogger.save_transaction` (transaction_logger.py lines
55-109) restricted to its observable state, the stored signature list
(newest first), with `_is_duplicate`'s check; an empty signature models
Python's falsy-signature early return. -/
def saveTransaction (log : List String) (signature : String) :
    List String × Bool :=
  if signature = "" then (log, false)
  else if signature ∈ log then (log, false)
  else (signature :: log, true)

/-- `TradingCoordinator.process_signal` (trading_coordinator.py lines
76-195) restricted to its effect on balance, positions and risk state.
The slippage draw is the parameter `slip`; storage writes carry no state
read back by this path. -/
def processSignal (oracle : String → Option PriceInfo) (slip : ℚ)
    (balance : ℚ) (positions : Positions) (risk : RiskState)
    (signal : TradeSignal) (now : Int) : ℚ × Positions × RiskState :=
  if (checkTradingAllowed risk now).1 = false then (balance, positions, risk)
  else
    let decision := strategyDecide oracle positions signal balance
    if decision.should_trade = false then (balance, positions, risk)
    else
      match signal.token_mint.bind oracle with
      | none => (balance, positions, risk)
      | some price_info =>
        let er := executorExecute ⟨balance, positions⟩ decision price_info slip now
        let risk' :=
          if er.1.success = true ∧ er.1.action = TradeAction.SELL ∧
              (er.1.realized_pnl).isSome = true then
            recordTradeResult risk (decide ((er.1.realized_pnl).getD 0 > 0)) now
          else risk
        (er.2.balance, er.2.positions, risk')

/-- The full pipeline state: the transaction logger's saved signatures plus
the portfolio simulator's balance, positions and risk state. -/
structure SysState where
  txLog : List String
  balance : ℚ
  positions : Positions
  risk : RiskState
deriving DecidableEq

/-- The `process_batch` half of the scan: save every transaction of the
batch through the duplicate-checking logger. -/
def foldSave (log : List String) (txs : List RawTx) : List String :=
  txs.foldl (fun l tx => (saveTransaction l tx.signature).1) log

/-- The signal path of `TradingSystem._scan_and_process` (main.py lines
156-192): the polled batch is reversed oldest-first, saved through
`TransactionProcessor.process_batch` (transaction_logger duplicate check),
and then EVERY transaction of the batch — regardless of the duplicate
check's outcome — is parsed and each signal handed to
`TradingCoordinator.process_signal`. -/
def scanAndProcess (oracle : String → Option PriceInfo) (slip : ℚ)
    (target_wallet : String) (now : Int) (st : SysState)
    (new_transactions : List RawTx) : SysState :=
  let transactions := new_transactions.reverse
  let log2 := foldSave st.txLog transactions
  let t := transactions.foldl
    (fun acc tx =>
      (parseSignals target_wallet tx).foldl
        (fun acc2 s => processSignal oracle slip acc2.1 acc2.2.1 acc2.2.2 s now)
        acc)
    (st.balance, st.positions, st.risk)
  { txLog := log2, balance := t.1, positions := t.2.1, risk := t.2.2 }

theorem saveTransaction_mem_mono {log : List String} {s sig : String}
    (h : s ∈ log) : s ∈ (saveTransaction log sig).1 := by
  unfold saveTransaction
  by_cases h1 : sig = ""
  · rw [if_pos h1]
    exact h
  · rw [if_neg h1]
    by_cases h2 : sig ∈ log
    · rw [if_pos h2]
      exact h
    · rw [if_neg h2]
      exact List.mem_cons_of_mem _ h

theorem saveTransaction_self_mem {log : List String} {sig : String}
    (h : sig ≠ "") : sig ∈ (saveTransaction log sig).1 := by
  unfold saveTransaction
  rw [if_neg h]
  by_cases h2 : sig ∈ log
  · rw [if_pos h2]
    exact h2
  · rw [if_neg h2]
    exact List.mem_cons_self _ _

theorem saveTransaction_of_mem {log : List String} {sig : String}
    (h : sig ∈ log) : (saveTransaction log sig).1 = log := by
  unfold saveTransaction
  by_cases h1 : sig = ""
  · rw [if_pos h1]
  · rw [if_neg h1, if_pos h]

theorem foldSave_mem_mono {txs : List RawTx} {log : List String} {s : String}
    (h : s ∈ log) : s ∈ foldSave log txs := by
  induction txs generalizing log with
  | nil => exact h
  | cons t rest ih => exact ih (saveTransaction_mem_mono h)

theorem foldSave_all_mem (txs : List RawTx) (log : List String) :
    ∀ tx ∈ txs, tx.signature ≠ "" → tx.signature ∈ foldSave log txs := by
  induction txs generalizing log with
  | nil =>
    intro tx htx
    cases htx
  | cons t rest ih =>
    intro tx htx hne
    rcases List.mem_cons.mp htx with h | h
    · subst h
      show tx.signature ∈ foldSave (saveTransaction log tx.signature).1 rest
      exact foldSave_mem_mono (saveTransaction_self_mem hne)
    · show tx.signature ∈ foldSave (saveTransaction log t.signature).1 rest
      exact ih _ tx h hne

theorem foldSave_noop {txs : List RawTx} {log : List String}
    (h : ∀ tx ∈ txs, tx.signature ∈ log) : foldSave log txs = log := by
  induction txs with
  | nil => rfl
  | cons t rest ih =>
    show foldSave (saveTransaction log t.signature).1 rest = log
    rw [saveTransaction_of_mem (h t (List.mem_cons_self _ _))]
    exact ih fun tx htx => h tx (List.mem_cons_of_mem _ htx)

/-- C10 (amended): replaying a batch through the scan loop leaves the
persisted raw-transaction log unchanged — the duplicate-signature check of
`TransactionLogger.save_transaction` skips every already-saved signature —
but that check does not gate trade execution, so PositionManager state is
not protected (see the counterexample theorem). -/
theorem C10_log_replay_idempotent (oracle : String → Option PriceInfo)
    (slip : ℚ) (target_wallet : String) (now now2 : Int) (st : SysState)
    (batch : List RawTx) (h : ∀ tx ∈ batch, tx.signature ≠ "") :
    (scanAndProcess oracle slip target_wallet now2
        (scanAndProcess oracle slip target_wallet now st batch) batch).txLog
      = (scanAndProcess oracle slip target_wallet now st batch).txLog := by
  have hlog : ∀ (st2 : SysState) (tm : Int),
      (scanAndProcess oracle slip target_wallet tm st2 batch).txLog =
        foldSave st2.txLog batch.reverse := fun _ _ => rfl
  rw [hlog, hlog]
  apply foldSave_noop
  intro tx htx
  exact foldSave_all_mem batch.reverse st.txLog tx htx
    (h tx (List.mem_reverse.mp htx))

/-- Quote returned by the demo oracle for mint `"XYZ"`. -/
def demoPriceXYZ : PriceInfo :=
  { mint := "XYZ", price_sol := 0, price_usd := 1, liquidity := 10000,
    market_cap := 100000 }

/-- A pure price oracle knowing only `"XYZ"`. -/
def demoOracle : String → Option PriceInfo := fun m =>
  if m = "XYZ" then some demoPriceXYZ else none

/-- A swap transaction of the tracked wallet `"w"`: 100 `"XYZ"` tokens in. -/
def demoRawTx : RawTx :=
  { signature := "s1", txType := "SWAP", timestamp := 0,
    nativeTransfers := [],
    tokenTransfers :=
      [{ mint := "XYZ", fromUserAccount := "pool", toUserAccount := "w",
         tokenAmount := 100 }] }

/-- The BUY signal parsed from `demoRawTx`. -/
def demoSignal : TradeSignal :=
  { signature := "s1", action := "BUY", token_mint := some "XYZ",
    token_symbol := "XYZ", amount := 100, sol_amount := 0, timestamp := 0 }

/-- Fresh pipeline state: empty log, $1000 balance, no positions. -/
def initSysState : SysState :=
  { txLog := [], balance := 1000, positions := [], risk := initialRiskState }

/-- Position after the first pass: 100 tokens at cost basis $1. -/
def demoPos1 : TokenPosition :=
  { mint := "XYZ", symbol := "XYZ", amount := 100, cost_basis := 1,
    total_cost := 100, current_price := 1, unrealized_pnl := 0,
    unrealized_pnl_percent := 0, entry_time := 0, last_update_time := 0 }

/-- Position after replaying the same batch: 190 tokens. -/
def demoPos2 : TokenPosition :=
  { mint := "XYZ", symbol := "XYZ", amount := 190, cost_basis := 1,
    total_cost := 190, current_price := 1, unrealized_pnl := 0,
    unrealized_pnl_percent := 0, entry_time := 0, last_update_time := 0 }

/-- Execution record of the first pass's BUY. -/
def demoResult1 : ExecutionResult :=
  { success := true, action := TradeAction.BUY, token_mint := "XYZ",
    token_symbol := "XYZ", executed_price := 1, executed_amount := 100,
    cost := 100, slippage := 0, balance_before := 1000, balance_after := 900,
    timestamp := 0, error_message := none, realized_pnl := none }

/-- Execution record of the replayed BUY. -/
def demoResult2 : ExecutionResult :=
  { success := true, action := TradeAction.BUY, token_mint := "XYZ",
    token_symbol := "XYZ", executed_price := 1, executed_amount := 90,
    cost := 90, slippage := 0, balance_before := 900, balance_after := 810,
    timestamp := 0, error_message := none, realized_pnl := none }

/-- Decision produced on the first pass: buy 100 tokens for $100. -/
def demoDecision1 : TradingDecision :=
  { should_trade := true, action := TradeAction.BUY, token_mint := "XYZ",
    token_symbol := "XYZ", amount := 100, estimated_cost := 100,
    reason := "跟随聪明钱买入", current_balance := 1000 }

/-- Decision produced on the replayed pass: buy 90 tokens for $90. -/
def demoDecision2 : TradingDecision :=
  { should_trade := true, action := TradeAction.BUY, token_mint := "XYZ",
    token_symbol := "XYZ", amount := 90, estimated_cost := 90,
    reason := "跟随聪明钱买入", current_balance := 900 }

theorem demo_parse : parseSignals "w" demoRawTx = [demoSignal] := by decide

theorem demo_strategy1 :
    strategyDecide demoOracle [] demoSignal 1000 = demoDecision1 := by
  have hb2 : demoSignal.token_mint.bind demoOracle = some demoPriceXYZ := rfl
  have hc : calculateBuyAmount 1000 demoPriceXYZ.price_usd = (100, 100) := by
    show calculateBuyAmount 1000 1 = (100, 100)
    norm_num [calculateBuyAmount, tradeRatioCfg, minTradeAmount]
  have hle : ¬(((100 : ℚ), (100 : ℚ)).1 ≤ 0) := by norm_num
  have ha : demoSignal.action = "BUY" := rfl
  have hnf : ¬(enableFiltering = true ∧
      (checkFilters demoSignal demoPriceXYZ).1 = false) :=
    fun h => Bool.false_ne_true h.1
  simp only [strategyDecide, hb2]
  rw [if_pos ha, if_neg hnf, hc, if_neg hle]
  rfl

theorem demo_strategy2 :
    strategyDecide demoOracle [("XYZ", demoPos1)] demoSignal 900 =
      demoDecision2 := by
  have hb2 : demoSignal.token_mint.bind demoOracle = some demoPriceXYZ := rfl
  have hc : calculateBuyAmount 900 demoPriceXYZ.price_usd = (90, 90) := by
    show calculateBuyAmount 900 1 = (90, 90)
    norm_num [calculateBuyAmount, tradeRatioCfg, minTradeAmount]
  have hle : ¬(((90 : ℚ), (90 : ℚ)).1 ≤ 0) := by norm_num
  have ha : demoSignal.action = "BUY" := rfl
  have hnf : ¬(enableFiltering = true ∧
      (checkFilters demoSignal demoPriceXYZ).1 = false) :=
    fun h => Bool.false_ne_true h.1
  simp only [strategyDecide, hb2]
  rw [if_pos ha, if_neg hnf, hc, if_neg hle]
  rfl

theorem demo_add1 : addPosition [] "XYZ" "XYZ" 100 100 0 = [("XYZ", demoPos1)] := by
  have hlk : lookupPos ([] : Positions) "XYZ" = none := rfl
  rw [addPosition_lookup_none "XYZ" 100 0 (by norm_num) hlk]
  show [("XYZ",
    ({ mint := "XYZ", symbol := "XYZ", amount := 100,
       cost_basis := (100 : ℚ) / 100, total_cost := 100,
       current_price := (100 : ℚ) / 100, unrealized_pnl := 0,
       unrealized_pnl_percent := 0, entry_time := 0,
       last_update_time := 0 } : TokenPosition))] = [("XYZ", demoPos1)]
  norm_num [demoPos1]

theorem demo_add2 :
    addPosition [("XYZ", demoPos1)] "XYZ" "XYZ" 90 90 0 = [("XYZ", demoPos2)] := by
  have hlk : lookupPos [("XYZ", demoPos1)] "XYZ" = some demoPos1 := rfl
  rw [addPosition_lookup_some "XYZ" 90 0 (by norm_num) hlk]
  show [("XYZ", recalcPnlPos
    { mint := "XYZ", symbol := "XYZ", amount := demoPos1.amount + 90,
      cost_basis := (demoPos1.total_cost + 90) / (demoPos1.amount + 90),
      total_cost := demoPos1.total_cost + 90,
      current_price := demoPos1.current_price, unrealized_pnl := 0,
      unrealized_pnl_percent := 0, entry_time := demoPos1.entry_time,
      last_update_time := 0 })] = [("XYZ", demoPos2)]
  norm_num [recalcPnlPos, demoPos1, demoPos2]

theorem demo_exec1 :
    executorExecute ⟨1000, []⟩ demoDecision1 demoPriceXYZ 0 0 =
      (demoResult1, ⟨900, [("XYZ", demoPos1)]⟩) := by
  have hng : ¬(demoPriceXYZ.price_usd * (1 + (0 : ℚ)) * demoDecision1.amount >
      (ExecState.mk 1000 []).balance) := by
    norm_num [demoPriceXYZ, demoDecision1]
  have hexec := @executeBuy_accept ⟨1000, []⟩ demoDecision1 demoPriceXYZ 0 0 hng
  show executeBuy ⟨1000, []⟩ demoDecision1 demoPriceXYZ 0 0 = _
  rw [hexec]
  simp only [demoDecision1, demoPriceXYZ]
  rw [(by norm_num : (1 : ℚ) * (1 + 0) = 1)]
  rw [(by norm_num : (1 : ℚ) * 100 = 100)]
  rw [(by norm_num : (1000 : ℚ) - 100 = 900)]
  rw [demo_add1]
  rfl

theorem demo_exec2 :
    executorExecute ⟨900, [("XYZ", demoPos1)]⟩ demoDecision2 demoPriceXYZ 0 0 =
      (demoResult2, ⟨810, [("XYZ", demoPos2)]⟩) := by
  have hng : ¬(demoPriceXYZ.price_usd * (1 + (0 : ℚ)) * demoDecision2.amount >
      (ExecState.mk 900 [("XYZ", demoPos1)]).balance) := by
    norm_num [demoPriceXYZ, demoDecision2]
  have hexec := @executeBuy_accept ⟨900, [("XYZ", demoPos1)]⟩ demoDecision2
    demoPriceXYZ 0 0 hng
  show executeBuy ⟨900, [("XYZ", demoPos1)]⟩ demoDecision2 demoPriceXYZ 0 0 = _
  rw [hexec]
  simp only [demoDecision2, demoPriceXYZ]
  rw [(by norm_num : (1 : ℚ) * (1 + 0) = 1)]
  rw [(by norm_num : (1 : ℚ) * 90 = 90)]
  rw [(by norm_num : (900 : ℚ) - 90 = 810)]
  rw [demo_add2]
  rfl

theorem demo_process1 :
    processSignal demoOracle 0 1000 [] initialRiskState demoSignal 0 =
      (900, [("XYZ", demoPos1)], initialRiskState) := by
  have hgate : ¬((checkTradingAllowed initialRiskState 0).1 = false) := by decide
  have hb2 : demoSignal.token_mint.bind demoOracle = some demoPriceXYZ := rfl
  have hst : ¬(demoDecision1.should_trade = false) := by decide
  have hrisk : ¬(demoResult1.success = true ∧
      demoResult1.action = TradeAction.SELL ∧
      (demoResult1.realized_pnl).isSome = true) := by decide
  simp only [processSignal]
  rw [if_neg hgate, demo_strategy1, if_neg hst]
  simp only [hb2]
  rw [demo_exec1, if_neg hrisk]

theorem demo_process2 :
    processSignal demoOracle 0 900 [("XYZ", demoPos1)] initialRiskState
        demoSignal 0 =
      (810, [("XYZ", demoPos2)], initialRiskState) := by
  have hgate : ¬((checkTradingAllowed initialRiskState 0).1 = false) := by decide
  have hb2 : demoSignal.token_mint.bind demoOracle = some demoPriceXYZ := rfl
  have hst : ¬(demoDecision2.should_trade = false) := by decide
  have hrisk : ¬(demoResult2.success = true ∧
      demoResult2.action = TradeAction.SELL ∧
      (demoResult2.realized_pnl).isSome = true) := by decide
  simp only [processSignal]
  rw [if_neg hgate, demo_strategy2, if_neg hst]
  simp only [hb2]
  rw [demo_exec2, if_neg hrisk]

theorem demo_scan1 :
    scanAndProcess demoOracle 0 "w" 0 initSysState [demoRawTx] =
      { txLog := ["s1"], balance := 900, positions := [("XYZ", demoPos1)],
        risk := initialRiskState } := by
  have hsave : foldSave ([] : List String) [demoRawTx] = ["s1"] := by decide
  simp only [scanAndProcess, List.reverse_cons, List.reverse_nil,
    List.nil_append, List.foldl_cons, List.foldl_nil, initSysState,
    demo_parse, demo_process1, hsave]

theorem demo_scan2 :
    scanAndProcess demoOracle 0 "w" 0
        { txLog := ["s1"], balance := 900, positions := [("XYZ", demoPos1)],
          risk := initialRiskState } [demoRawTx] =
      { txLog := ["s1"], balance := 810, positions := [("XYZ", demoPos2)],
        risk := initialRiskState } := by
  have hsave : foldSave ["s1"] [demoRawTx] = ["s1"] := by decide
  simp only [scanAndProcess, List.reverse_cons, List.reverse_nil,
    List.nil_append, List.foldl_cons, List.foldl_nil, demo_parse,
    demo_process2, hsave]

/-- C10 counterexample: replaying the very same one-transaction batch (same
signature `"s1"`) through the scan loop executes the BUY a second time —
the duplicate-signature check only guards the raw-transaction log, not the
signal path — so the PositionManager state after the second pass (190
tokens held) differs from the state after the first (100 tokens held). -/
theorem C10_counterexample :
    (scanAndProcess demoOracle 0 "w" 0
        (scanAndProcess demoOracle 0 "w" 0 initSysState [demoRawTx])
        [demoRawTx]).positions
      ≠ (scanAndProcess demoOracle 0 "w" 0 initSysState [demoRawTx]).positions := by
  rw [demo_scan1, demo_scan2]
  decide

/-- C10 witness for the amended claim: replaying the demo batch leaves the
transaction log (`["s1"]`) unchanged. -/
theorem C10_log_replay_witness :
    (scanAndProcess demoOracle 0 "w" 0
        (scanAndProcess demoOracle 0 "w" 0 initSysState [demoRawTx])
        [demoRawTx]).txLog
      = (scanAndProcess demoOracle 0 "w" 0 initSysState [demoRawTx]).txLog :=
  C10_log_replay_idempotent demoOracle 0 "w" 0 0 initSysState [demoRawTx]
    (by decide)
